import Mathlib

/-!
Verification development for the `maxbates/timeline` repository.

The repository stores dates as extended ISO 8601 strings (BCE dates carry a
negative-year prefix), converts them to decimal-year numbers for positioning,
computes timeline bounds with padding and snapping, and lays out events in
lanes with a greedy stacking algorithm.

JavaScript numbers are modelled by `ℚ`.  A JS `NaN`-producing parse is
modelled by `Option` (`none` plays the role of a NaN-poisoned value); a JS
comparison `NaN < x`, which is `false`, is modelled by `(·.getD 0)` feeding a
comparison that the surrounding code only uses in boolean-guard position.
-/

set_option maxRecDepth 8000

namespace Timeline

/-! ### Character/digit helpers (model of JS `String(n)` and `Number(s)`) -/

/-- The decimal digit character for `n < 10` (as produced by JS `String(n)`). -/
def digitChar (n : ℕ) : Char :=
  match n with
  | 0 => '0' | 1 => '1' | 2 => '2' | 3 => '3' | 4 => '4'
  | 5 => '5' | 6 => '6' | 7 => '7' | 8 => '8' | _ => '9'

/-- Fuel-driven decimal rendering of a natural number (most significant first). -/
def natToStringAux : ℕ → ℕ → List Char
  | 0, _ => []
  | fuel + 1, n =>
    if n < 10 then [digitChar n]
    else natToStringAux fuel (n / 10) ++ [digitChar (n % 10)]

/-- Decimal rendering of a natural number, JS `String(n)` for `n : ℕ`. -/
def natToString (n : ℕ) : List Char := natToStringAux (n + 1) n

/-- JS `Number(s)` restricted to non-empty all-digit strings; everything else
is `none` (modelling `NaN`).  (JS `Number` also accepts signs, blanks, and
`""`; those shapes never arise from the date formats this repository uses.) -/
def digitsVal? (l : List Char) : Option ℕ :=
  if l = [] then none
  else if l.all Char.isDigit then
    some (l.foldl (fun acc c => 10 * acc + (c.toNat - 48)) 0)
  else none

/-- JS `String.prototype.padStart(targetLen, c)`. -/
def padStartL (l : List Char) (targetLen : ℕ) (c : Char) : List Char :=
  List.replicate (targetLen - l.length) c ++ l

/-- JS `String.prototype.split(sep)` on single-character separators. -/
def splitOnChar (sep : Char) : List Char → List (List Char)
  | [] => [[]]
  | c :: rest =>
    if c = sep then [] :: splitOnChar sep rest
    else
      match splitOnChar sep rest with
      | [] => [[c]]
      | group :: groups => (c :: group) :: groups

/-- JS `String.prototype.replace(target, '')` for a one-character target:
removes the first occurrence only. -/
def removeFirst (target : Char) : List Char → List Char
  | [] => []
  | c :: rest => if c = target then rest else c :: removeFirst target rest

/-! ### Date model (`src/lib/dates.ts`, `src/types`) -/

/-- `DatePrecision` from `src/types/chat.ts`. -/
inductive DatePrecision where
  | year
  | month
  | day
  | datetime
deriving DecidableEq

/-- `ParsedDate` from `src/lib/dates.ts`: astronomical year numbering,
optional finer components. -/
structure ParsedDate where
  year : ℤ
  month : Option ℕ
  day : Option ℕ
  hour : Option ℕ
  minute : Option ℕ
  second : Option ℕ
  precision : DatePrecision
deriving DecidableEq

/-- The body of `parseExtendedDate` after the sign has been stripped:
`sign` is the `(isNegative ? -1 : 1)` factor and `normalized` the string
without its leading `'-'`.  `none` models a result whose year (or datetime
hour) component is `NaN` and would poison every numeric use downstream;
optional components that JS would leave `undefined` or `NaN` are modelled as
`none` fields. -/
def parseCoreAux (sign : ℤ) (normalized : List Char) : Option ParsedDate :=
  if normalized.contains 'T' then
    -- datetime format: "YYYY-MM-DDTHH:MM:SSZ"
    match splitOnChar 'T' normalized with
    | datePart :: timePart :: _ =>
      let dc := splitOnChar '-' datePart
      let tc := splitOnChar ':' (removeFirst 'Z' timePart)
      do
        let y ← (dc[0]?).bind digitsVal?
        let hour ← (tc[0]?).bind digitsVal?
        some ⟨sign * y, (dc[1]?).bind digitsVal?, (dc[2]?).bind digitsVal?,
              some hour, (tc[1]?).bind digitsVal?,
              some ((((tc[2]?).bind digitsVal?)).getD 0), DatePrecision.datetime⟩
    | _ => none
  else
    match (splitOnChar '-' normalized).map digitsVal? with
    | [y?] => do
      let y ← y?
      some ⟨sign * y, none, none, none, none, none, DatePrecision.year⟩
    | [y?, m?] => do
      let y ← y?
      some ⟨sign * y, m?, none, none, none, none, DatePrecision.month⟩
    | y? :: m? :: d? :: _ => do
      let y ← y?
      some ⟨sign * y, m?, d?, none, none, none, DatePrecision.day⟩
    | [] => none

/-- Core of `parseExtendedDate` on the character list of the input string. -/
def parseCore (l : List Char) : Option ParsedDate :=
  let isNegative := l.head? = some '-'
  parseCoreAux (if isNegative then -1 else 1) (if isNegative then l.tail else l)

/-- `parseExtendedDate` from `src/lib/dates.ts`. -/
def parseExtendedDate (dateStr : String) : Option ParsedDate :=
  parseCore dateStr.data

/-- Core of `formatExtendedDate`, producing the character list. -/
def formatCore (date : ParsedDate) : List Char :=
  let yearStr : List Char :=
    if date.year < 0 then '-' :: padStartL (natToString date.year.natAbs) 4 '0'
    else padStartL (natToString date.year.toNat) 4 '0'
  match date.precision with
  | DatePrecision.year => yearStr
  | DatePrecision.month =>
    yearStr ++ '-' :: padStartL (natToString (date.month.getD 1)) 2 '0'
  | DatePrecision.day =>
    yearStr ++ '-' :: padStartL (natToString (date.month.getD 1)) 2 '0'
            ++ '-' :: padStartL (natToString (date.day.getD 1)) 2 '0'
  | DatePrecision.datetime =>
    yearStr ++ '-' :: padStartL (natToString (date.month.getD 1)) 2 '0'
            ++ '-' :: padStartL (natToString (date.day.getD 1)) 2 '0'
            ++ 'T' :: (padStartL (natToString (date.hour.getD 0)) 2 '0'
            ++ ':' :: padStartL (natToString (date.minute.getD 0)) 2 '0'
            ++ ':' :: padStartL (natToString (date.second.getD 0)) 2 '0'
            ++ ['Z'])

/-- `formatExtendedDate` from `src/lib/dates.ts`. -/
def formatExtendedDate (date : ParsedDate) : String :=
  String.mk (formatCore date)

/-- The numeric (decimal-year) value of an already-parsed date; the arithmetic
body of `dateToNumericValue`.  The `= 0` guards mirror the JS truthiness tests
`if (parsed.month)` / `if (parsed.day)` (0 is falsy); the hour test in the
source is `parsed.hour !== undefined`, and `parsed.minute || 0` is `getD 0`. -/
def parsedNumeric (parsed : ParsedDate) : ℚ :=
  match parsed.month with
  | none => (parsed.year : ℚ)
  | some m =>
    if m = 0 then (parsed.year : ℚ)
    else
      let withMonth : ℚ := (parsed.year : ℚ) + ((m : ℚ) - 1) / 12
      match parsed.day with
      | none => withMonth
      | some d =>
        if d = 0 then withMonth
        else
          let withDay : ℚ := withMonth + ((d : ℚ) - 1) / 365
          match parsed.hour with
          | none => withDay
          | some h =>
            withDay + ((h : ℚ) + ((parsed.minute.getD 0 : ℕ) : ℚ) / 60) / (365 * 24)

/-- `dateToNumericValue` from `src/lib/dates.ts`: parse, then accumulate the
fractional year.  `none` models the NaN the JS version produces on a
malformed string. -/
def dateToNumericValue (dateStr : String) : Option ℚ :=
  (parseExtendedDate dateStr).map parsedNumeric

/-- `compareDates` from `src/lib/dates.ts`:
`dateToNumericValue a - dateToNumericValue b` (NaN-poisoned as `none`). -/
def compareDates (a b : String) : Option ℚ := do
  let va ← dateToNumericValue a
  let vb ← dateToNumericValue b
  some (va - vb)

/-- `getMinDate` from `src/lib/dates.ts`: `reduce` keeping the smaller date.
The JS guard `compareDates(date, min) < 0` is `false` when the comparison is
NaN, which `(·.getD 0) < 0` reproduces. -/
def getMinDate (dates : List String) : Option String :=
  match dates with
  | [] => none
  | d :: rest =>
    some (rest.foldl (fun mn date => if (compareDates date mn).getD 0 < 0 then date else mn) d)

/-- `getMaxDate` from `src/lib/dates.ts`. -/
def getMaxDate (dates : List String) : Option String :=
  match dates with
  | [] => none
  | d :: rest =>
    some (rest.foldl (fun mx date => if (compareDates date mx).getD 0 > 0 then date else mx) d)

/-- A `ParsedDate` is representable when exactly the components up to its
precision are present and lie in range (month 1–12, day 1–31, hour ≤ 23,
minute ≤ 59, second ≤ 59): these are the values `formatExtendedDate` can
faithfully serialize. -/
def isRepresentable (d : ParsedDate) : Bool :=
  match d.precision with
  | DatePrecision.year =>
    d.month.isNone && d.day.isNone && d.hour.isNone && d.minute.isNone && d.second.isNone
  | DatePrecision.month =>
    (match d.month with | some m => decide (1 ≤ m) && decide (m ≤ 12) | none => false)
      && d.day.isNone && d.hour.isNone && d.minute.isNone && d.second.isNone
  | DatePrecision.day =>
    (match d.month with | some m => decide (1 ≤ m) && decide (m ≤ 12) | none => false)
      && (match d.day with | some dd => decide (1 ≤ dd) && decide (dd ≤ 31) | none => false)
      && d.hour.isNone && d.minute.isNone && d.second.isNone
  | DatePrecision.datetime =>
    (match d.month with | some m => decide (1 ≤ m) && decide (m ≤ 12) | none => false)
      && (match d.day with | some dd => decide (1 ≤ dd) && decide (dd ≤ 31) | none => false)
      && (match d.hour with | some h => decide (h ≤ 23) | none => false)
      && (match d.minute with | some mi => decide (mi ≤ 59) | none => false)
      && (match d.second with | some s => decide (s ≤ 59) | none => false)

/-- Chronological order on parsed dates: the instant a date denotes is the
start of the period it names (missing month/day default to 1, missing time
components to 0); instants are compared lexicographically. -/
def instantBefore (a b : ParsedDate) : Bool :=
  if a.year ≠ b.year then decide (a.year < b.year)
  else if a.month.getD 1 ≠ b.month.getD 1 then decide (a.month.getD 1 < b.month.getD 1)
  else if a.day.getD 1 ≠ b.day.getD 1 then decide (a.day.getD 1 < b.day.getD 1)
  else if a.hour.getD 0 ≠ b.hour.getD 0 then decide (a.hour.getD 0 < b.hour.getD 0)
  else if a.minute.getD 0 ≠ b.minute.getD 0 then decide (a.minute.getD 0 < b.minute.getD 0)
  else decide (a.second.getD 0 < b.second.getD 0)

/-! ### Timeline data model (`src/types/chat.ts`) -/

/-- `EventType`: point or span events. -/
inductive EventType where
  | point
  | span
deriving DecidableEq

/-- `TimelineEvent` (the temporally relevant fields; the presentation fields
`title`, `description`, `sources`, … play no role in bounds or layout). -/
structure TimelineEvent where
  id : String
  trackId : String
  type : EventType
  startDate : String
  endDate : Option String
deriving DecidableEq

/-- The `snapUnit` alternatives of `TimelineBounds`. -/
inductive SnapUnit where
  | day
  | month
  | year
  | decade
  | century
  | millennium
deriving DecidableEq

/-- `TimelineBounds` from `src/types/chat.ts`. -/
structure TimelineBounds where
  dataStart : String
  dataEnd : String
  viewStart : String
  viewEnd : String
  snapUnit : SnapUnit
deriving DecidableEq

/-! ### Bounds calculation (`src/features/timeline/utils/bounds.ts`) -/

/-- `getSnapUnit`: choose the unit from the absolute duration in years. -/
def getSnapUnit (rangeDuration : ℚ) : SnapUnit :=
  let absDuration := |rangeDuration|
  if absDuration < 1 / 12 then SnapUnit.day
  else if absDuration < 1 then SnapUnit.month
  else if absDuration < 10 then SnapUnit.year
  else if absDuration < 100 then SnapUnit.decade
  else if absDuration < 1000 then SnapUnit.century
  else SnapUnit.millennium

/-- The `'floor' | 'ceil'` direction argument of `snapToUnit`. -/
inductive SnapDirection where
  | floor
  | ceil
deriving DecidableEq

/-- `Math.floor` / `Math.ceil` according to the direction. -/
def roundFn (direction : SnapDirection) (x : ℚ) : ℤ :=
  match direction with
  | SnapDirection.floor => ⌊x⌋
  | SnapDirection.ceil => ⌈x⌉

/-- `snapToUnit`: round a decimal-year value outward to a clean boundary. -/
def snapToUnit (value : ℚ) (unit : SnapUnit) (direction : SnapDirection) : ℚ :=
  match unit with
  | SnapUnit.day => (roundFn direction (value * 365) : ℚ) / 365
  | SnapUnit.month => (roundFn direction (value * 12) : ℚ) / 12
  | SnapUnit.year => (roundFn direction value : ℚ)
  | SnapUnit.decade => (roundFn direction (value / 10) : ℚ) * 10
  | SnapUnit.century => (roundFn direction (value / 100) : ℚ) * 100
  | SnapUnit.millennium => (roundFn direction (value / 1000) : ℚ) * 1000

/-- The `'start' | 'end'` direction argument of `snapValueToDateString`
(`stop` stands for the reserved word `end`). -/
inductive SnapEdge where
  | start
  | stop
deriving DecidableEq

/-- `snapValueToDateString`: convert a snapped numeric value back to a date
string.  Where the source passes the raw `value` (always integral at those
call sites, having been produced by `Math.floor`/`Math.ceil` in `snapToUnit`)
as the `year` field, the model writes `⌊value⌋`, which agrees on integers. -/
def snapValueToDateString (value : ℚ) (unit : SnapUnit) (direction : SnapEdge) : String :=
  let year : ℤ := ⌊value⌋
  let fraction : ℚ := value - year
  match unit with
  | SnapUnit.day =>
    let month : ℤ := ⌊fraction * 12⌋ + 1
    let dayFraction : ℚ := (fraction * 12 - ((month : ℚ) - 1)) * 30
    let day : ℤ := max 1 (min 28 (⌊dayFraction⌋ + 1))
    formatExtendedDate ⟨year, some month.toNat, some day.toNat, none, none, none, DatePrecision.day⟩
  | SnapUnit.month =>
    let month : ℤ := ⌊fraction * 12⌋ + 1
    match direction with
    | SnapEdge.start =>
      formatExtendedDate ⟨year, some (max 1 month).toNat, some 1, none, none, none, DatePrecision.day⟩
    | SnapEdge.stop =>
      let nextMonth : ℤ := month + 1
      if nextMonth > 12 then
        formatExtendedDate ⟨year + 1, some 1, some 1, none, none, none, DatePrecision.day⟩
      else
        formatExtendedDate ⟨year, some nextMonth.toNat, some 1, none, none, none, DatePrecision.day⟩
  | SnapUnit.year =>
    match direction with
    | SnapEdge.start =>
      formatExtendedDate ⟨⌊value⌋, some 1, some 1, none, none, none, DatePrecision.day⟩
    | SnapEdge.stop =>
      formatExtendedDate ⟨⌊value⌋, some 12, some 31, none, none, none, DatePrecision.day⟩
  | _ =>
    match direction with
    | SnapEdge.start =>
      formatExtendedDate ⟨⌊value⌋, some 1, some 1, none, none, none, DatePrecision.day⟩
    | SnapEdge.stop =>
      formatExtendedDate ⟨⌊value⌋ - 1, some 12, some 31, none, none, none, DatePrecision.day⟩

/-- The date list collected by `calculateTimelineBounds`: every `startDate`
followed by the `endDate` when present. -/
def allEventDates (events : List TimelineEvent) : List String :=
  events.flatMap fun event => event.startDate :: event.endDate.toList

/-- `calculateTimelineBounds`: find data bounds, pad by
`max(range * 0.05, 0.1)`, pick the snap unit from the padded range, snap
outward and render the view bounds.  `none` models the JS `null` return on an
empty list; it also covers a NaN-poisoned min/max date, which the JS version
would push through as NaN (excluded by the well-formedness hypotheses of
every theorem below). -/
def calculateTimelineBounds (events : List TimelineEvent) : Option TimelineBounds :=
  if events.isEmpty then none
  else do
    let allDates := allEventDates events
    let dataStart ← getMinDate allDates
    let dataEnd ← getMaxDate allDates
    let startValue ← dateToNumericValue dataStart
    let endValue ← dateToNumericValue dataEnd
    let range := endValue - startValue
    let padding := max (range * (5 / 100)) (1 / 10)
    let paddedStart := startValue - padding
    let paddedEnd := endValue + padding
    let paddedRange := paddedEnd - paddedStart
    let snapUnit := getSnapUnit paddedRange
    let snappedStart := snapToUnit paddedStart snapUnit SnapDirection.floor
    let snappedEnd := snapToUnit paddedEnd snapUnit SnapDirection.ceil
    let viewStart := snapValueToDateString snappedStart snapUnit SnapEdge.start
    let viewEnd := snapValueToDateString snappedEnd snapUnit SnapEdge.stop
    some ⟨dataStart, dataEnd, viewStart, viewEnd, snapUnit⟩

/-- `getDatePosition`: linear interpolation of the date inside
`[viewStart, viewEnd]`; a degenerate range returns `0.5` without consulting
the date's own value (exactly as in the source, where the `range === 0` test
precedes any use of `value`). -/
def getDatePosition (date : String) (bounds : TimelineBounds) : Option ℚ := do
  let value? := dateToNumericValue date
  let startValue ← dateToNumericValue bounds.viewStart
  let endValue ← dateToNumericValue bounds.viewEnd
  let range := endValue - startValue
  if range = 0 then some (1 / 2)
  else do
    let value ← value?
    some ((value - startValue) / range)

/-- `getDateRangeWidth`: absolute difference of the two positions. -/
def getDateRangeWidth (startDate endDate : String) (bounds : TimelineBounds) : Option ℚ := do
  let startPos ← getDatePosition startDate bounds
  let endPos ← getDatePosition endDate bounds
  some |endPos - startPos|

/-! ### Event layout (`src/features/timeline/utils/layout.ts`) -/

def MAX_LANES : ℕ := 12

def POINT_EVENT_WIDTH : ℚ := 8 / 1000

def TEXT_LABEL_WIDTH : ℚ := 12 / 100

def MIN_VISUAL_SPACING : ℚ := 1 / 100

/-- `EventLayout` from `src/types/chat.ts`. -/
structure EventLayout where
  eventId : String
  x : ℚ
  width : ℚ
  lane : ℕ
  collapsed : Bool
deriving DecidableEq

/-- `LaneOccupancy` (`stop` stands for the reserved field name `end`). -/
structure LaneOccupancy where
  start : ℚ
  stop : ℚ
deriving DecidableEq

/-- `rangesOverlapOrTooClose`: overlap test after padding both ranges by the
minimum visual spacing on each side. -/
def rangesOverlapOrTooClose (aStart aEnd bStart bEnd minSpacing : ℚ) : Bool :=
  let paddedAStart := aStart - minSpacing
  let paddedAEnd := aEnd + minSpacing
  let paddedBStart := bStart - minSpacing
  let paddedBEnd := bEnd + minSpacing
  decide (paddedAStart < paddedBEnd) && decide (paddedAEnd > paddedBStart)

/-- The `occupancies.some(...)` test of the lane-search loop. -/
def laneHasOverlap (occupancies : List LaneOccupancy) (rangeStart rangeEnd : ℚ) : Bool :=
  occupancies.any fun occ =>
    rangesOverlapOrTooClose rangeStart rangeEnd occ.start occ.stop MIN_VISUAL_SPACING

/-- The `for lane in 0..<MAX_LANES` search: returns the first free lane (if
any) and the occupancy table with the range pushed into that lane. -/
def assignLane (occs : List (List LaneOccupancy)) (rangeStart rangeEnd : ℚ) :
    Option ℕ × List (List LaneOccupancy) :=
  match occs with
  | [] => (none, [])
  | occ :: rest =>
    if laneHasOverlap occ rangeStart rangeEnd then
      let res := assignLane rest rangeStart rangeEnd
      (res.1.map Nat.succ, occ :: res.2)
    else (some 0, (occ ++ [⟨rangeStart, rangeEnd⟩]) :: rest)

/-- The width computation of the layout loop (`event.type === 'span' &&
event.endDate`; an empty `endDate` string is falsy in JS). -/
def eventWidth (event : TimelineEvent) (bounds : TimelineBounds) : Option ℚ :=
  match event.type, event.endDate with
  | EventType.span, some endDate =>
    if endDate = "" then some POINT_EVENT_WIDTH
    else getDateRangeWidth event.startDate endDate bounds
  | _, _ => some POINT_EVENT_WIDTH

/-- The body of the `for (const event of sortedEvents)` loop. -/
def layoutLoop (bounds : TimelineBounds) :
    List TimelineEvent → List (List LaneOccupancy) → Option (List EventLayout)
  | [], _ => some []
  | event :: rest, laneOccupancies => do
    let x ← getDatePosition event.startDate bounds
    let width ← eventWidth event bounds
    let rangeStart := x
    let rangeEnd := x + width + TEXT_LABEL_WIDTH
    let res := assignLane laneOccupancies rangeStart rangeEnd
    let layout : EventLayout :=
      ⟨event.id, x, width, (res.1).getD MAX_LANES, (res.1).isNone⟩
    let restLayouts ← layoutLoop bounds rest res.2
    some (layout :: restLayouts)

/-- The comparator of `calculateEventLayout`'s sort, as a boolean
"`compare(a,b) ≤ 0`" relation: earlier start first, points before spans at
the same start.  (A NaN start, `getD 0`, makes the JS comparator's result
unspecified; the theorems below only concern parseable dates.) -/
def eventSortLe (a b : TimelineEvent) : Bool :=
  let aStart := (dateToNumericValue a.startDate).getD 0
  let bStart := (dateToNumericValue b.startDate).getD 0
  if aStart ≠ bStart then decide (aStart < bStart)
  else if a.type = EventType.point && b.type = EventType.span then true
  else if a.type = EventType.span && b.type = EventType.point then false
  else true

/-- Stable insertion of an element after every element that compares `≤` it. -/
def insertSorted (le : TimelineEvent → TimelineEvent → Bool) (x : TimelineEvent) :
    List TimelineEvent → List TimelineEvent
  | [] => [x]
  | y :: ys => if le y x then y :: insertSorted le x ys else x :: y :: ys

/-- The `[...events].sort(comparator)` step: JS `Array.prototype.sort` is
stable, and a stable sort under the (total, transitive) comparator is the
unique sorted stable permutation, realized here by insertion sort. -/
def sortEvents (events : List TimelineEvent) : List TimelineEvent :=
  events.foldl (fun acc e => insertSorted eventSortLe e acc) []

/-- `calculateEventLayout` from `src/features/timeline/utils/layout.ts`. -/
def calculateEventLayout (events : List TimelineEvent) (bounds : TimelineBounds) :
    Option (List EventLayout) :=
  if events.isEmpty then some []
  else layoutLoop bounds (sortEvents events) (List.replicate MAX_LANES [])

/-- The `Map`-based grouping of `calculateTrackLayouts`: first-occurrence key
order, events appended in input order. -/
def pushTrack : List (String × List TimelineEvent) → TimelineEvent →
    List (String × List TimelineEvent)
  | [], e => [(e.trackId, [e])]
  | (t, es) :: rest, e =>
    if t = e.trackId then (t, es ++ [e]) :: rest else (t, es) :: pushTrack rest e

/-- The `trackEvents` map of `calculateTrackLayouts`. -/
def groupByTrack (events : List TimelineEvent) : List (String × List TimelineEvent) :=
  events.foldl pushTrack []

/-- `calculateTrackLayouts`: per-track layouts. -/
def calculateTrackLayouts (events : List TimelineEvent) (bounds : TimelineBounds) :
    List (String × Option (List EventLayout)) :=
  (groupByTrack events).map fun p => (p.1, calculateEventLayout p.2 bounds)

/-! ### Viewport (`src/features/timeline/hooks/useTimelineViewport.ts`) -/

/-- `ViewportState`. -/
structure ViewportState where
  viewStart : ℚ
  viewEnd : ℚ
  zoomLevel : ℚ
deriving DecidableEq

/-- The `pan` state transition: shift both edges by `deltaX * currentRange`. -/
def pan (deltaX : ℚ) (prev : ViewportState) : ViewportState :=
  let range := prev.viewEnd - prev.viewStart
  let delta := deltaX * range
  ⟨prev.viewStart + delta, prev.viewEnd + delta, prev.zoomLevel⟩

/-- The collision-range start the layout loop stores for an event:
`rangeStart = x`. -/
def layoutRangeStart (l : EventLayout) : ℚ := l.x

/-- The collision-range end the layout loop stores for an event:
`rangeEnd = x + width + TEXT_LABEL_WIDTH` (the label allowance). -/
def layoutRangeEnd (l : EventLayout) : ℚ := l.x + l.width + TEXT_LABEL_WIDTH

/-! ### Concrete inputs used by witnesses and counterexamples -/

/-- The event set of the spec's worked example: dates spanning exactly
`1939-09-01` to `1947-08-15`. -/
def wwiiEvents : List TimelineEvent :=
  [⟨"e1", "t1", EventType.span, "1939-09-01", some "1947-08-15"⟩]

/-! ### Lemmas: decimal digit strings -/

theorem digitChar_isDigit (n : ℕ) : (digitChar n).isDigit = true := by
  unfold digitChar
  rcases n with _ | _ | _ | _ | _ | _ | _ | _ | _ | n <;> rfl

theorem digitChar_val (n : ℕ) (h : n < 10) : (digitChar n).toNat - 48 = n := by
  unfold digitChar
  interval_cases n <;> rfl

theorem natToStringAux_all_isDigit (fuel n : ℕ) :
    (natToStringAux fuel n).all Char.isDigit = true := by
  induction fuel generalizing n with
  | zero => rfl
  | succ fuel ih =>
    unfold natToStringAux
    by_cases h : n < 10
    · simp [h, digitChar_isDigit]
    · simp [h, List.all_append, ih, digitChar_isDigit]

theorem natToStringAux_ne_nil (fuel n : ℕ) (h : 0 < fuel) : natToStringAux fuel n ≠ [] := by
  match fuel, h with
  | fuel + 1, _ =>
    unfold natToStringAux
    by_cases h10 : n < 10
    · simp [h10]
    · simp [h10]

theorem natToStringAux_foldl (fuel : ℕ) :
    ∀ n a : ℕ, n < fuel →
      (natToStringAux fuel n).foldl (fun acc c => 10 * acc + (c.toNat - 48)) a =
        a * 10 ^ (natToStringAux fuel n).length + n := by
  induction fuel with
  | zero => omega
  | succ fuel ih =>
    intro n a h
    unfold natToStringAux
    by_cases h10 : n < 10
    · simp [h10, digitChar_val n h10]
      omega
    · have hdiv : n / 10 < fuel := by
        have h1 : n / 10 < n := Nat.div_lt_self (by omega) (by omega)
        omega
      simp only [h10, if_false, List.foldl_append, List.length_append, List.foldl_cons,
        List.foldl_nil, List.length_cons, List.length_nil, ih (n / 10) a hdiv]
      rw [digitChar_val (n % 10) (Nat.mod_lt n (by omega))]
      have hmul : a * 10 ^ ((natToStringAux fuel (n / 10)).length + (0 + 1)) =
          10 * (a * 10 ^ (natToStringAux fuel (n / 10)).length) := by ring
      rw [hmul]
      omega

theorem natToString_all_isDigit (n : ℕ) : (natToString n).all Char.isDigit = true :=
  natToStringAux_all_isDigit (n + 1) n

theorem natToString_ne_nil (n : ℕ) : natToString n ≠ [] :=
  natToStringAux_ne_nil (n + 1) n (by omega)

theorem digitsVal?_natToString (n : ℕ) : digitsVal? (natToString n) = some n := by
  unfold digitsVal?
  rw [if_neg (natToString_ne_nil n), if_pos (natToString_all_isDigit n)]
  rw [natToString, natToStringAux_foldl (n + 1) n 0 (by omega)]
  simp

theorem foldl_digit_zeros (m : ℕ) :
    (List.replicate m '0').foldl (fun acc c => 10 * acc + (c.toNat - 48)) 0 = 0 := by
  induction m with
  | zero => rfl
  | succ m ih => simpa [List.replicate_succ] using ih

theorem padStartL_all_isDigit (l : List Char) (k : ℕ) (h : l.all Char.isDigit = true) :
    (padStartL l k '0').all Char.isDigit = true := by
  unfold padStartL
  simp [List.all_append, List.all_replicate, h]

theorem padStartL_ne_nil (l : List Char) (k : ℕ) (h : l ≠ []) : padStartL l k '0' ≠ [] := by
  unfold padStartL
  simp [h]

theorem digitsVal?_ne_nil {l : List Char} {v : ℕ} (h : digitsVal? l = some v) : l ≠ [] := by
  intro hl
  rw [hl] at h
  simp [digitsVal?] at h

theorem digitsVal?_all_isDigit {l : List Char} {v : ℕ} (h : digitsVal? l = some v) :
    l.all Char.isDigit = true := by
  by_contra hd
  rw [digitsVal?, if_neg (digitsVal?_ne_nil h), if_neg hd] at h
  exact Option.noConfusion h

theorem digitsVal?_padStartL (l : List Char) (k : ℕ) (v : ℕ) (h : digitsVal? l = some v) :
    digitsVal? (padStartL l k '0') = some v := by
  have hnil := digitsVal?_ne_nil h
  have hdig := digitsVal?_all_isDigit h
  rw [digitsVal?, if_neg (digitsVal?_ne_nil h), if_pos hdig] at h
  rw [digitsVal?, if_neg (padStartL_ne_nil l k hnil), if_pos (padStartL_all_isDigit l k hdig)]
  rw [padStartL, List.foldl_append, foldl_digit_zeros]
  exact h

/-- Decimal rendering padded to a given width: value and digit facts bundled. -/
theorem digitsVal?_pad_natToString (n k : ℕ) :
    digitsVal? (padStartL (natToString n) k '0') = some n :=
  digitsVal?_padStartL (natToString n) k n (digitsVal?_natToString n)

theorem not_mem_of_all_isDigit {l : List Char} (h : l.all Char.isDigit = true)
    {c : Char} (hc : c.isDigit = false) : c ∉ l := by
  intro hmem
  have := List.all_eq_true.mp h c hmem
  rw [hc] at this
  exact Bool.noConfusion this

theorem head_ne_dash_of_all_isDigit {l : List Char} (h : l.all Char.isDigit = true)
    {c : Char} (hc : l.head? = some c) : c ≠ '-' := by
  intro hdash
  subst hdash
  have hmem : '-' ∈ l := by
    cases l with
    | nil => simp at hc
    | cons a l => simp at hc; subst hc; exact List.mem_cons_self _ _
  exact not_mem_of_all_isDigit h (by rfl) hmem

/-! ### Lemmas: splitting and removal -/

theorem splitOnChar_of_not_mem (sep : Char) (l : List Char) (h : sep ∉ l) :
    splitOnChar sep l = [l] := by
  induction l with
  | nil => rfl
  | cons c rest ih =>
    have hc : c ≠ sep := fun hh => h (hh ▸ List.mem_cons_self c rest)
    have hrest : sep ∉ rest := fun hh => h (List.mem_cons_of_mem c hh)
    rw [splitOnChar, if_neg hc, ih hrest]

theorem splitOnChar_append (sep : Char) (a b : List Char) (h : sep ∉ a) :
    splitOnChar sep (a ++ sep :: b) = a :: splitOnChar sep b := by
  induction a with
  | nil => simp [splitOnChar]
  | cons c a ih =>
    have hc : c ≠ sep := fun hh => h (hh ▸ List.mem_cons_self c a)
    have ha : sep ∉ a := fun hh => h (List.mem_cons_of_mem c hh)
    rw [List.cons_append, splitOnChar, if_neg hc, ih ha]

theorem removeFirst_append_singleton (c : Char) (l : List Char) (h : c ∉ l) :
    removeFirst c (l ++ [c]) = l := by
  induction l with
  | nil => simp [removeFirst]
  | cons a l ih =>
    have ha : a ≠ c := fun hh => h (hh ▸ List.mem_cons_self a l)
    have hl : c ∉ l := fun hh => h (List.mem_cons_of_mem a hh)
    rw [List.cons_append, removeFirst, if_neg (by exact fun hh => ha hh), ih hl]

theorem contains_eq_false_of_not_mem (l : List Char) (c : Char) (h : c ∉ l) :
    l.contains c = false := by
  rw [← Bool.not_eq_true, List.contains]
  intro hc
  exact h (List.elem_iff.mp hc)

/-! ### Lemmas: shape of `parseCoreAux` on well-formed inputs -/

theorem not_mem_append_cons {c sep : Char} {a b : List Char}
    (ha : c ∉ a) (hsep : c ≠ sep) (hb : c ∉ b) : c ∉ a ++ sep :: b := by
  simp only [List.mem_append, List.mem_cons]
  push_neg
  exact ⟨ha, hsep, hb⟩

theorem head?_ne_dash_of_all_digits {l : List Char} (hd : l.all Char.isDigit = true) :
    ¬(l.head? = some '-') := by
  intro hc
  have hmem : '-' ∈ l := by
    cases l with
    | nil => simp at hc
    | cons a t =>
      simp only [List.head?_cons, Option.some.injEq] at hc
      exact hc ▸ List.mem_cons_self a t
  exact not_mem_of_all_isDigit hd (by decide) hmem

theorem head?_ne_dash_append {Y rest : List Char} (hY : Y ≠ [])
    (hYd : Y.all Char.isDigit = true) : ¬((Y ++ rest).head? = some '-') := by
  obtain ⟨y0, yt, rfl⟩ := List.exists_cons_of_ne_nil hY
  simp only [List.cons_append, List.head?_cons, Option.some.injEq]
  intro hc
  exact absurd (List.all_eq_true.mp hYd '-' (hc ▸ List.mem_cons_self _ _)) (by decide)

theorem parseCore_of_head_ne_dash (l : List Char) (h : ¬(l.head? = some '-')) :
    parseCore l = parseCoreAux 1 l := by
  rw [parseCore]
  simp [h]

theorem parseCore_dash_cons (l : List Char) : parseCore ('-' :: l) = parseCoreAux (-1) l := by
  rw [parseCore]
  simp

theorem parseCoreAux_year (s : ℤ) (Y : List Char) (y : ℕ)
    (hY : digitsVal? Y = some y) (hYd : Y.all Char.isDigit = true) :
    parseCoreAux s Y = some ⟨s * y, none, none, none, none, none, DatePrecision.year⟩ := by
  have hT : Y.contains 'T' = false :=
    contains_eq_false_of_not_mem _ _ (not_mem_of_all_isDigit hYd (by decide))
  rw [parseCoreAux, hT]
  simp only [Bool.false_eq_true, if_false]
  rw [splitOnChar_of_not_mem '-' Y (not_mem_of_all_isDigit hYd (by decide))]
  simp [hY]

theorem parseCoreAux_month (s : ℤ) (Y M : List Char) (y m : ℕ)
    (hY : digitsVal? Y = some y) (hYd : Y.all Char.isDigit = true)
    (hM : digitsVal? M = some m) (hMd : M.all Char.isDigit = true) :
    parseCoreAux s (Y ++ '-' :: M) =
      some ⟨s * y, some m, none, none, none, none, DatePrecision.month⟩ := by
  have hYdash := not_mem_of_all_isDigit hYd (c := '-') (by decide)
  have hMdash := not_mem_of_all_isDigit hMd (c := '-') (by decide)
  have hT : (Y ++ '-' :: M).contains 'T' = false :=
    contains_eq_false_of_not_mem _ _ (not_mem_append_cons
      (not_mem_of_all_isDigit hYd (by decide)) (by decide)
      (not_mem_of_all_isDigit hMd (by decide)))
  rw [parseCoreAux, hT]
  simp only [Bool.false_eq_true, if_false]
  rw [splitOnChar_append '-' Y _ hYdash, splitOnChar_of_not_mem '-' M hMdash]
  simp [hY, hM]

theorem parseCoreAux_day (s : ℤ) (Y M D : List Char) (y m dd : ℕ)
    (hY : digitsVal? Y = some y) (hYd : Y.all Char.isDigit = true)
    (hM : digitsVal? M = some m) (hMd : M.all Char.isDigit = true)
    (hD : digitsVal? D = some dd) (hDd : D.all Char.isDigit = true) :
    parseCoreAux s (Y ++ '-' :: (M ++ '-' :: D)) =
      some ⟨s * y, some m, some dd, none, none, none, DatePrecision.day⟩ := by
  have hYdash := not_mem_of_all_isDigit hYd (c := '-') (by decide)
  have hMdash := not_mem_of_all_isDigit hMd (c := '-') (by decide)
  have hDdash := not_mem_of_all_isDigit hDd (c := '-') (by decide)
  have hT : (Y ++ '-' :: (M ++ '-' :: D)).contains 'T' = false :=
    contains_eq_false_of_not_mem _ _ (not_mem_append_cons
      (not_mem_of_all_isDigit hYd (by decide)) (by decide)
      (not_mem_append_cons (not_mem_of_all_isDigit hMd (by decide)) (by decide)
        (not_mem_of_all_isDigit hDd (by decide))))
  rw [parseCoreAux, hT]
  simp only [Bool.false_eq_true, if_false]
  rw [splitOnChar_append '-' Y _ hYdash, splitOnChar_append '-' M _ hMdash,
    splitOnChar_of_not_mem '-' D hDdash]
  simp [hY, hM, hD]

theorem contains_eq_true_of_mem (l : List Char) (c : Char) (h : c ∈ l) :
    l.contains c = true := by
  rw [List.contains]
  exact List.elem_iff.mpr h

theorem parseCoreAux_datetime (s : ℤ) (Y M D H Mi S : List Char) (y m dd h mi sec : ℕ)
    (hY : digitsVal? Y = some y) (hYd : Y.all Char.isDigit = true)
    (hM : digitsVal? M = some m) (hMd : M.all Char.isDigit = true)
    (hD : digitsVal? D = some dd) (hDd : D.all Char.isDigit = true)
    (hH : digitsVal? H = some h) (hHd : H.all Char.isDigit = true)
    (hMi : digitsVal? Mi = some mi) (hMid : Mi.all Char.isDigit = true)
    (hS : digitsVal? S = some sec) (hSd : S.all Char.isDigit = true) :
    parseCoreAux s
        (Y ++ '-' :: (M ++ '-' :: (D ++ 'T' :: (H ++ ':' :: (Mi ++ ':' :: (S ++ ['Z'])))))) =
      some ⟨s * y, some m, some dd, some h, some mi, some sec, DatePrecision.datetime⟩ := by
  have hYdash := not_mem_of_all_isDigit hYd (c := '-') (by decide)
  have hMdash := not_mem_of_all_isDigit hMd (c := '-') (by decide)
  have hDdash := not_mem_of_all_isDigit hDd (c := '-') (by decide)
  have hHcolon := not_mem_of_all_isDigit hHd (c := ':') (by decide)
  have hMicolon := not_mem_of_all_isDigit hMid (c := ':') (by decide)
  have hScolon := not_mem_of_all_isDigit hSd (c := ':') (by decide)
  have hTdp : 'T' ∉ Y ++ '-' :: (M ++ '-' :: D) :=
    not_mem_append_cons (not_mem_of_all_isDigit hYd (by decide)) (by decide)
      (not_mem_append_cons (not_mem_of_all_isDigit hMd (by decide)) (by decide)
        (not_mem_of_all_isDigit hDd (by decide)))
  have hTtp : 'T' ∉ H ++ ':' :: (Mi ++ ':' :: (S ++ ['Z'])) :=
    not_mem_append_cons (not_mem_of_all_isDigit hHd (by decide)) (by decide)
      (not_mem_append_cons (not_mem_of_all_isDigit hMid (by decide)) (by decide)
        (not_mem_append_cons (not_mem_of_all_isDigit hSd (by decide)) (by decide)
          (by decide)))
  have hZpre : 'Z' ∉ H ++ ':' :: (Mi ++ ':' :: S) :=
    not_mem_append_cons (not_mem_of_all_isDigit hHd (by decide)) (by decide)
      (not_mem_append_cons (not_mem_of_all_isDigit hMid (by decide)) (by decide)
        (not_mem_of_all_isDigit hSd (by decide)))
  have hassoc :
      Y ++ '-' :: (M ++ '-' :: (D ++ 'T' :: (H ++ ':' :: (Mi ++ ':' :: (S ++ ['Z']))))) =
        (Y ++ '-' :: (M ++ '-' :: D)) ++ 'T' :: (H ++ ':' :: (Mi ++ ':' :: (S ++ ['Z']))) := by
    simp [List.append_assoc]
  have hTmem :
      'T' ∈ (Y ++ '-' :: (M ++ '-' :: D)) ++ 'T' :: (H ++ ':' :: (Mi ++ ':' :: (S ++ ['Z']))) := by
    simp
  have hre : removeFirst 'Z' (H ++ ':' :: (Mi ++ ':' :: (S ++ ['Z']))) =
      H ++ ':' :: (Mi ++ ':' :: S) := by
    have hz : H ++ ':' :: (Mi ++ ':' :: (S ++ ['Z'])) = (H ++ ':' :: (Mi ++ ':' :: S)) ++ ['Z'] := by
      simp [List.append_assoc]
    rw [hz, removeFirst_append_singleton _ _ hZpre]
  rw [hassoc, parseCoreAux.eq_def, contains_eq_true_of_mem _ _ hTmem]
  simp only [if_true]
  rw [splitOnChar_append 'T' _ _ hTdp, splitOnChar_of_not_mem 'T' _ hTtp]
  simp only
  rw [splitOnChar_append '-' Y _ hYdash, splitOnChar_append '-' M _ hMdash,
    splitOnChar_of_not_mem '-' D hDdash, hre,
    splitOnChar_append ':' H _ hHcolon, splitOnChar_append ':' Mi _ hMicolon,
    splitOnChar_of_not_mem ':' S hScolon]
  simp [hY, hM, hD, hH, hMi, hS]

/-! ### Lemmas: parse/format round trip -/

theorem pad_digits (n k : ℕ) : (padStartL (natToString n) k '0').all Char.isDigit = true :=
  padStartL_all_isDigit _ _ (natToString_all_isDigit n)

theorem pad_ne_nil (n k : ℕ) : padStartL (natToString n) k '0' ≠ [] :=
  padStartL_ne_nil _ _ (natToString_ne_nil n)

theorem parse_format_roundtrip (d : ParsedDate) (h : isRepresentable d = true) :
    parseExtendedDate (formatExtendedDate d) = some d := by
  obtain ⟨y, mo, da, ho, mi, se, p⟩ := d
  show parseCore (formatCore ⟨y, mo, da, ho, mi, se, p⟩) = _
  cases p with
  | year =>
    simp only [isRepresentable, Bool.and_eq_true, Option.isNone_iff_eq_none] at h
    obtain ⟨⟨⟨⟨h1, h2⟩, h3⟩, h4⟩, h5⟩ := h
    subst h1 h2 h3 h4 h5
    show parseCore (if y < 0 then '-' :: padStartL (natToString y.natAbs) 4 '0'
      else padStartL (natToString y.toNat) 4 '0') = _
    by_cases hy : y < 0
    · rw [if_pos hy, parseCore_dash_cons,
        parseCoreAux_year (-1) _ y.natAbs (digitsVal?_pad_natToString _ _) (pad_digits _ _)]
      have hval : (-1 : ℤ) * y.natAbs = y := by omega
      rw [hval]
    · rw [if_neg hy,
        parseCore_of_head_ne_dash _ (head?_ne_dash_of_all_digits (pad_digits _ _)),
        parseCoreAux_year 1 _ y.toNat (digitsVal?_pad_natToString _ _) (pad_digits _ _)]
      have hval : (1 : ℤ) * y.toNat = y := by omega
      rw [hval]
  | month =>
    cases mo with
    | none => simp [isRepresentable] at h
    | some m =>
      simp only [isRepresentable, Bool.and_eq_true, Option.isNone_iff_eq_none,
        decide_eq_true_eq] at h
      obtain ⟨⟨⟨⟨⟨hm1, hm2⟩, h2⟩, h3⟩, h4⟩, h5⟩ := h
      subst h2 h3 h4 h5
      show parseCore ((if y < 0 then '-' :: padStartL (natToString y.natAbs) 4 '0'
        else padStartL (natToString y.toNat) 4 '0') ++
          '-' :: padStartL (natToString ((some m).getD 1)) 2 '0') = _
      rw [Option.getD_some]
      by_cases hy : y < 0
      · rw [if_pos hy, List.cons_append, parseCore_dash_cons,
          parseCoreAux_month (-1) _ _ y.natAbs m (digitsVal?_pad_natToString _ _)
            (pad_digits _ _) (digitsVal?_pad_natToString _ _) (pad_digits _ _)]
        have hval : (-1 : ℤ) * y.natAbs = y := by omega
        rw [hval]
      · rw [if_neg hy,
          parseCore_of_head_ne_dash _ (head?_ne_dash_append (pad_ne_nil _ _) (pad_digits _ _)),
          parseCoreAux_month 1 _ _ y.toNat m (digitsVal?_pad_natToString _ _)
            (pad_digits _ _) (digitsVal?_pad_natToString _ _) (pad_digits _ _)]
        have hval : (1 : ℤ) * y.toNat = y := by omega
        rw [hval]
  | day =>
    cases mo with
    | none => simp [isRepresentable] at h
    | some m =>
      cases da with
      | none => simp [isRepresentable] at h
      | some dd =>
        simp only [isRepresentable, Bool.and_eq_true, Option.isNone_iff_eq_none,
          decide_eq_true_eq] at h
        obtain ⟨⟨⟨⟨⟨hm1, hm2⟩, ⟨hd1, hd2⟩⟩, h3⟩, h4⟩, h5⟩ := h
        subst h3 h4 h5
        show parseCore ((if y < 0 then '-' :: padStartL (natToString y.natAbs) 4 '0'
          else padStartL (natToString y.toNat) 4 '0') ++
            '-' :: padStartL (natToString ((some m).getD 1)) 2 '0' ++
            '-' :: padStartL (natToString ((some dd).getD 1)) 2 '0') = _
        rw [Option.getD_some, Option.getD_some]
        by_cases hy : y < 0
        · rw [if_pos hy]
          simp only [List.cons_append, List.append_assoc]
          rw [parseCore_dash_cons,
            parseCoreAux_day (-1) _ _ _ y.natAbs m dd (digitsVal?_pad_natToString _ _)
              (pad_digits _ _) (digitsVal?_pad_natToString _ _) (pad_digits _ _)
              (digitsVal?_pad_natToString _ _) (pad_digits _ _)]
          have hval : (-1 : ℤ) * y.natAbs = y := by omega
          rw [hval]
        · rw [if_neg hy]
          simp only [List.cons_append, List.append_assoc]
          rw [parseCore_of_head_ne_dash _
              (head?_ne_dash_append (pad_ne_nil _ _) (pad_digits _ _)),
            parseCoreAux_day 1 _ _ _ y.toNat m dd (digitsVal?_pad_natToString _ _)
              (pad_digits _ _) (digitsVal?_pad_natToString _ _) (pad_digits _ _)
              (digitsVal?_pad_natToString _ _) (pad_digits _ _)]
          have hval : (1 : ℤ) * y.toNat = y := by omega
          rw [hval]
  | datetime =>
    cases mo with
    | none => simp [isRepresentable] at h
    | some m =>
      cases da with
      | none => simp [isRepresentable] at h
      | some dd =>
        cases ho with
        | none => simp [isRepresentable] at h
        | some hh =>
          cases mi with
          | none => simp [isRepresentable] at h
          | some mm =>
            cases se with
            | none => simp [isRepresentable] at h
            | some ss =>
              show parseCore ((if y < 0 then '-' :: padStartL (natToString y.natAbs) 4 '0'
                else padStartL (natToString y.toNat) 4 '0') ++
                  '-' :: padStartL (natToString ((some m).getD 1)) 2 '0' ++
                  '-' :: padStartL (natToString ((some dd).getD 1)) 2 '0' ++
                  'T' :: (padStartL (natToString ((some hh).getD 0)) 2 '0' ++
                  ':' :: padStartL (natToString ((some mm).getD 0)) 2 '0' ++
                  ':' :: padStartL (natToString ((some ss).getD 0)) 2 '0' ++
                  ['Z'])) = _
              simp only [Option.getD_some]
              by_cases hy : y < 0
              · rw [if_pos hy]
                simp only [List.cons_append, List.append_assoc]
                rw [parseCore_dash_cons,
                  parseCoreAux_datetime (-1) _ _ _ _ _ _ y.natAbs m dd hh mm ss
                    (digitsVal?_pad_natToString _ _) (pad_digits _ _)
                    (digitsVal?_pad_natToString _ _) (pad_digits _ _)
                    (digitsVal?_pad_natToString _ _) (pad_digits _ _)
                    (digitsVal?_pad_natToString _ _) (pad_digits _ _)
                    (digitsVal?_pad_natToString _ _) (pad_digits _ _)
                    (digitsVal?_pad_natToString _ _) (pad_digits _ _)]
                have hval : (-1 : ℤ) * y.natAbs = y := by omega
                rw [hval]
              · rw [if_neg hy]
                simp only [List.cons_append, List.append_assoc]
                rw [parseCore_of_head_ne_dash _
                    (head?_ne_dash_append (pad_ne_nil _ _) (pad_digits _ _)),
                  parseCoreAux_datetime 1 _ _ _ _ _ _ y.toNat m dd hh mm ss
                    (digitsVal?_pad_natToString _ _) (pad_digits _ _)
                    (digitsVal?_pad_natToString _ _) (pad_digits _ _)
                    (digitsVal?_pad_natToString _ _) (pad_digits _ _)
                    (digitsVal?_pad_natToString _ _) (pad_digits _ _)
                    (digitsVal?_pad_natToString _ _) (pad_digits _ _)
                    (digitsVal?_pad_natToString _ _) (pad_digits _ _)]
                have hval : (1 : ℤ) * y.toNat = y := by omega
                rw [hval]

/-! ### Lemmas: numeric values of representable dates -/

theorem dateToNumericValue_format (d : ParsedDate) (h : isRepresentable d = true) :
    dateToNumericValue (formatExtendedDate d) = some (parsedNumeric d) := by
  rw [dateToNumericValue, parse_format_roundtrip d h, Option.map_some']

theorem parsedNumeric_ymd (y : ℤ) (m dd : ℕ) (hm : 1 ≤ m) (hd : 1 ≤ dd) (p : DatePrecision) :
    parsedNumeric ⟨y, some m, some dd, none, none, none, p⟩ =
      (y : ℚ) + ((m : ℚ) - 1) / 12 + ((dd : ℚ) - 1) / 365 := by
  have hm0 : m ≠ 0 := by omega
  have hd0 : dd ≠ 0 := by omega
  simp [parsedNumeric, hm0, hd0]

/-- For representable dates of precision at most `day`, the numeric value is
`year + (month-1)/12 + (day-1)/365` with missing components defaulted. -/
theorem parsedNumeric_repr_not_datetime (d : ParsedDate) (h : isRepresentable d = true)
    (hp : d.precision ≠ DatePrecision.datetime) :
    parsedNumeric d =
      (d.year : ℚ) + ((d.month.getD 1 : ℚ) - 1) / 12 + ((d.day.getD 1 : ℚ) - 1) / 365 := by
  obtain ⟨y, mo, da, ho, mi, se, p⟩ := d
  cases p with
  | year =>
    simp only [isRepresentable, Bool.and_eq_true, Option.isNone_iff_eq_none] at h
    obtain ⟨⟨⟨⟨h1, h2⟩, h3⟩, h4⟩, h5⟩ := h
    subst h1 h2
    simp [parsedNumeric]
  | month =>
    cases mo with
    | none => simp [isRepresentable] at h
    | some m =>
      simp only [isRepresentable, Bool.and_eq_true, Option.isNone_iff_eq_none,
        decide_eq_true_eq] at h
      obtain ⟨⟨⟨⟨⟨hm1, hm2⟩, h2⟩, h3⟩, h4⟩, h5⟩ := h
      subst h2
      have hm0 : m ≠ 0 := by omega
      simp [parsedNumeric, hm0]
  | day =>
    cases mo with
    | none => simp [isRepresentable] at h
    | some m =>
      cases da with
      | none => simp [isRepresentable] at h
      | some dd =>
        simp only [isRepresentable, Bool.and_eq_true, Option.isNone_iff_eq_none,
          decide_eq_true_eq] at h
        obtain ⟨⟨⟨⟨⟨hm1, hm2⟩, ⟨hd1, hd2⟩⟩, h3⟩, h4⟩, h5⟩ := h
        subst h3 h4 h5
        simp [parsedNumeric_ymd y m dd hm1 hd1]
  | datetime => exact absurd rfl hp

theorem representable_bounds_not_datetime (d : ParsedDate) (h : isRepresentable d = true)
    (hp : d.precision ≠ DatePrecision.datetime) :
    (1 ≤ d.month.getD 1 ∧ d.month.getD 1 ≤ 12 ∧ 1 ≤ d.day.getD 1 ∧ d.day.getD 1 ≤ 31) ∧
      d.hour = none ∧ d.minute = none ∧ d.second = none := by
  obtain ⟨y, mo, da, ho, mi, se, p⟩ := d
  cases p with
  | year =>
    simp only [isRepresentable, Bool.and_eq_true, Option.isNone_iff_eq_none] at h
    obtain ⟨⟨⟨⟨h1, h2⟩, h3⟩, h4⟩, h5⟩ := h
    subst h1 h2 h3 h4 h5
    simp
  | month =>
    cases mo with
    | none => simp [isRepresentable] at h
    | some m =>
      simp only [isRepresentable, Bool.and_eq_true, Option.isNone_iff_eq_none,
        decide_eq_true_eq] at h
      obtain ⟨⟨⟨⟨⟨hm1, hm2⟩, h2⟩, h3⟩, h4⟩, h5⟩ := h
      subst h2 h3 h4 h5
      simp [hm1, hm2]
  | day =>
    cases mo with
    | none => simp [isRepresentable] at h
    | some m =>
      cases da with
      | none => simp [isRepresentable] at h
      | some dd =>
        simp only [isRepresentable, Bool.and_eq_true, Option.isNone_iff_eq_none,
          decide_eq_true_eq] at h
        obtain ⟨⟨⟨⟨⟨hm1, hm2⟩, ⟨hd1, hd2⟩⟩, h3⟩, h4⟩, h5⟩ := h
        subst h3 h4 h5
        simp [hm1, hm2, hd1, hd2]
  | datetime => exact absurd rfl hp

theorem instantBefore_lex (a b : ParsedDate)
    (ha : a.hour = none ∧ a.minute = none ∧ a.second = none)
    (hb : b.hour = none ∧ b.minute = none ∧ b.second = none)
    (h : instantBefore a b = true) :
    a.year < b.year ∨ (a.year = b.year ∧ (a.month.getD 1 < b.month.getD 1 ∨
      (a.month.getD 1 = b.month.getD 1 ∧ a.day.getD 1 < b.day.getD 1))) := by
  obtain ⟨ha1, ha2, ha3⟩ := ha
  obtain ⟨hb1, hb2, hb3⟩ := hb
  rw [instantBefore, ha1, ha2, ha3, hb1, hb2, hb3] at h
  simp only [Option.getD_none] at h
  by_cases h1 : a.year = b.year
  · rw [if_neg (by omega : ¬(a.year ≠ b.year))] at h
    by_cases h2 : a.month.getD 1 = b.month.getD 1
    · rw [if_neg (by omega : ¬(a.month.getD 1 ≠ b.month.getD 1))] at h
      by_cases h3 : a.day.getD 1 = b.day.getD 1
      · rw [if_neg (by omega : ¬(a.day.getD 1 ≠ b.day.getD 1)),
          if_neg (by omega : ¬((0 : ℕ) ≠ 0)), if_neg (by omega : ¬((0 : ℕ) ≠ 0))] at h
        simp at h
      · rw [if_pos (by omega : a.day.getD 1 ≠ b.day.getD 1), decide_eq_true_eq] at h
        exact Or.inr ⟨h1, Or.inr ⟨h2, h⟩⟩
    · rw [if_pos (by omega : a.month.getD 1 ≠ b.month.getD 1), decide_eq_true_eq] at h
      exact Or.inr ⟨h1, Or.inl h⟩
  · rw [if_pos (by omega : a.year ≠ b.year), decide_eq_true_eq] at h
    exact Or.inl h

/-- Strict growth of `year + (month-1)/12 + (day-1)/365` along the
lexicographic (year, month, day) order, for month ≤ 12 and day ≤ 31. -/
theorem ymd_lt (y1 y2 : ℤ) (m1 m2 d1 d2 : ℕ)
    (hm1 : 1 ≤ m1) (hm1b : m1 ≤ 12) (hm2 : 1 ≤ m2) (hm2b : m2 ≤ 12)
    (hd1 : 1 ≤ d1) (hd1b : d1 ≤ 31) (hd2 : 1 ≤ d2) (hd2b : d2 ≤ 31)
    (hlex : y1 < y2 ∨ (y1 = y2 ∧ (m1 < m2 ∨ (m1 = m2 ∧ d1 < d2)))) :
    (y1 : ℚ) + ((m1 : ℚ) - 1) / 12 + ((d1 : ℚ) - 1) / 365 <
      (y2 : ℚ) + ((m2 : ℚ) - 1) / 12 + ((d2 : ℚ) - 1) / 365 := by
  have hm1Q : (1 : ℚ) ≤ (m1 : ℚ) := by exact_mod_cast hm1
  have hm1bQ : (m1 : ℚ) ≤ 12 := by exact_mod_cast hm1b
  have hm2Q : (1 : ℚ) ≤ (m2 : ℚ) := by exact_mod_cast hm2
  have hd1Q : (1 : ℚ) ≤ (d1 : ℚ) := by exact_mod_cast hd1
  have hd1bQ : (d1 : ℚ) ≤ 31 := by exact_mod_cast hd1b
  have hd2Q : (1 : ℚ) ≤ (d2 : ℚ) := by exact_mod_cast hd2
  rcases hlex with hy | ⟨hy, hm | ⟨hm, hd⟩⟩
  · have hyQ : (y1 : ℚ) + 1 ≤ (y2 : ℚ) := by exact_mod_cast Int.add_one_le_iff.mpr hy
    linarith
  · subst hy
    have hmQ : (m1 : ℚ) + 1 ≤ (m2 : ℚ) := by exact_mod_cast hm
    linarith
  · subst hy
    subst hm
    have hdQ : (d1 : ℚ) + 1 ≤ (d2 : ℚ) := by exact_mod_cast hd
    linarith

/-! ### Claim C4: parse/format round trip -/

/-- C4: for every representable `ParsedDate` (components up to the precision
present and in range, finer components absent),
`parseExtendedDate (formatExtendedDate d)` is structurally equal to `d`. -/
theorem claim4_parse_format_roundtrip (d : ParsedDate) (h : isRepresentable d = true) :
    parseExtendedDate (formatExtendedDate d) = some d :=
  parse_format_roundtrip d h

/-- Witness for C4 on a BCE day-precision date and a CE datetime. -/
theorem claim4_witness :
    (isRepresentable ⟨-44, some 3, some 15, none, none, none, DatePrecision.day⟩ = true ∧
      parseExtendedDate
        (formatExtendedDate ⟨-44, some 3, some 15, none, none, none, DatePrecision.day⟩) =
        some ⟨-44, some 3, some 15, none, none, none, DatePrecision.day⟩) ∧
    (isRepresentable ⟨2024, some 1, some 2, some 3, some 4, some 5, DatePrecision.datetime⟩ = true ∧
      parseExtendedDate
        (formatExtendedDate ⟨2024, some 1, some 2, some 3, some 4, some 5, DatePrecision.datetime⟩) =
        some ⟨2024, some 1, some 2, some 3, some 4, some 5, DatePrecision.datetime⟩) :=
  ⟨⟨by decide, claim4_parse_format_roundtrip _ (by decide)⟩,
   ⟨by decide, claim4_parse_format_roundtrip _ (by decide)⟩⟩

/-! ### Claim C3: monotonicity of `dateToNumericValue` -/

/-- C3 counterexample: `"2023-12-31T11:00:00Z"` denotes a strictly earlier
instant than `"2024-01-01"`, both are representable, yet its numeric value is
`2024 + 1/8760`, *larger* than `2024`: `compareDates` is positive, not
negative.  (The `(d-1)/365` day fraction plus the hour fraction overshoots
the `1/12` month step near month and year boundaries.) -/
theorem claim3_counterexample :
    parseExtendedDate "2023-12-31T11:00:00Z" =
      some ⟨2023, some 12, some 31, some 11, some 0, some 0, DatePrecision.datetime⟩ ∧
    parseExtendedDate "2024-01-01" =
      some ⟨2024, some 1, some 1, none, none, none, DatePrecision.day⟩ ∧
    isRepresentable ⟨2023, some 12, some 31, some 11, some 0, some 0, DatePrecision.datetime⟩
      = true ∧
    isRepresentable ⟨2024, some 1, some 1, none, none, none, DatePrecision.day⟩ = true ∧
    instantBefore ⟨2023, some 12, some 31, some 11, some 0, some 0, DatePrecision.datetime⟩
      ⟨2024, some 1, some 1, none, none, none, DatePrecision.day⟩ = true ∧
    compareDates "2023-12-31T11:00:00Z" "2024-01-01" = some (1 / 8760) ∧
    (0 : ℚ) < 1 / 8760 := by
  refine ⟨by decide, by decide, by decide, by decide, by decide, ?_, by norm_num⟩
  with_unfolding_all rfl

/-- C3 amended: `dateToNumericValue` is strictly monotonic on representable
date strings of precision `year`, `month` or `day`; for datetime-precision
strings monotonicity can fail (hours can overshoot a day/month/year step, and
seconds are ignored entirely). -/
theorem claim3_amended_monotonic_below_datetime (d1 d2 : ParsedDate)
    (h1 : isRepresentable d1 = true) (h2 : isRepresentable d2 = true)
    (hp1 : d1.precision ≠ DatePrecision.datetime) (hp2 : d2.precision ≠ DatePrecision.datetime)
    (hlt : instantBefore d1 d2 = true) :
    ∃ q1 q2, dateToNumericValue (formatExtendedDate d1) = some q1 ∧
      dateToNumericValue (formatExtendedDate d2) = some q2 ∧ q1 < q2 ∧
      compareDates (formatExtendedDate d1) (formatExtendedDate d2) = some (q1 - q2) ∧
      q1 - q2 < 0 := by
  obtain ⟨hb1, hh1, hmi1, hs1⟩ := representable_bounds_not_datetime d1 h1 hp1
  obtain ⟨hb2, hh2, hmi2, hs2⟩ := representable_bounds_not_datetime d2 h2 hp2
  have hlex := instantBefore_lex d1 d2 ⟨hh1, hmi1, hs1⟩ ⟨hh2, hmi2, hs2⟩ hlt
  have hq : parsedNumeric d1 < parsedNumeric d2 := by
    rw [parsedNumeric_repr_not_datetime d1 h1 hp1, parsedNumeric_repr_not_datetime d2 h2 hp2]
    exact ymd_lt _ _ _ _ _ _ hb1.1 hb1.2.1 hb2.1 hb2.2.1 hb1.2.2.1 hb1.2.2.2
      hb2.2.2.1 hb2.2.2.2 hlex
  refine ⟨parsedNumeric d1, parsedNumeric d2, dateToNumericValue_format d1 h1,
    dateToNumericValue_format d2 h2, hq, ?_, by linarith⟩
  rw [compareDates, dateToNumericValue_format d1 h1, dateToNumericValue_format d2 h2]
  rfl

/-- Witness for the amended C3 on 44 BCE vs 476 CE vs 2024 CE year strings. -/
theorem claim3_witness :
    ∃ q1 q2, dateToNumericValue (formatExtendedDate
        ⟨-44, none, none, none, none, none, DatePrecision.year⟩) = some q1 ∧
      dateToNumericValue (formatExtendedDate
        ⟨476, none, none, none, none, none, DatePrecision.year⟩) = some q2 ∧ q1 < q2 ∧
      compareDates (formatExtendedDate ⟨-44, none, none, none, none, none, DatePrecision.year⟩)
        (formatExtendedDate ⟨476, none, none, none, none, none, DatePrecision.year⟩) =
        some (q1 - q2) ∧ q1 - q2 < 0 :=
  claim3_amended_monotonic_below_datetime _ _ (by decide) (by decide) (by decide) (by decide)
    (by decide)

/-! ### Lemmas: `getMinDate` / `getMaxDate` -/

theorem compare_getD_lt {a b : String} (h : (compareDates a b).getD 0 < 0) :
    ∃ qa qb, dateToNumericValue a = some qa ∧ dateToNumericValue b = some qb ∧ qa < qb := by
  cases hab : compareDates a b with
  | none => rw [hab] at h; simp at h
  | some c =>
    rw [hab] at h
    simp only [Option.getD_some] at h
    rw [compareDates] at hab
    cases hva : dateToNumericValue a with
    | none => rw [hva] at hab; simp at hab
    | some va =>
      cases hvb : dateToNumericValue b with
      | none => rw [hva, hvb] at hab; simp at hab
      | some vb =>
        rw [hva, hvb] at hab
        simp only [Option.bind_eq_bind, Option.some_bind, Option.some.injEq] at hab
        exact ⟨va, vb, rfl, rfl, by linarith⟩

theorem compare_getD_gt {a b : String} (h : (compareDates a b).getD 0 > 0) :
    ∃ qa qb, dateToNumericValue a = some qa ∧ dateToNumericValue b = some qb ∧ qb < qa := by
  cases hab : compareDates a b with
  | none => rw [hab] at h; simp at h
  | some c =>
    rw [hab] at h
    simp only [Option.getD_some] at h
    rw [compareDates] at hab
    cases hva : dateToNumericValue a with
    | none => rw [hva] at hab; simp at hab
    | some va =>
      cases hvb : dateToNumericValue b with
      | none => rw [hva, hvb] at hab; simp at hab
      | some vb =>
        rw [hva, hvb] at hab
        simp only [Option.bind_eq_bind, Option.some_bind, Option.some.injEq] at hab
        exact ⟨va, vb, rfl, rfl, by linarith⟩

theorem foldl_min_mem (rest : List String) (d : String) :
    rest.foldl (fun mn date => if (compareDates date mn).getD 0 < 0 then date else mn) d
      ∈ d :: rest := by
  induction rest generalizing d with
  | nil => exact List.mem_cons_self _ _
  | cons x rest ih =>
    rw [List.foldl_cons]
    rcases List.mem_cons.mp (ih (if (compareDates x d).getD 0 < 0 then x else d)) with h | h
    · rw [h]
      split_ifs
      · exact List.mem_cons_of_mem _ (List.mem_cons_self _ _)
      · exact List.mem_cons_self _ _
    · exact List.mem_cons_of_mem _ (List.mem_cons_of_mem _ h)

theorem foldl_max_mem (rest : List String) (d : String) :
    rest.foldl (fun mx date => if (compareDates date mx).getD 0 > 0 then date else mx) d
      ∈ d :: rest := by
  induction rest generalizing d with
  | nil => exact List.mem_cons_self _ _
  | cons x rest ih =>
    rw [List.foldl_cons]
    rcases List.mem_cons.mp (ih (if (compareDates x d).getD 0 > 0 then x else d)) with h | h
    · rw [h]
      split_ifs
      · exact List.mem_cons_of_mem _ (List.mem_cons_self _ _)
      · exact List.mem_cons_self _ _
    · exact List.mem_cons_of_mem _ (List.mem_cons_of_mem _ h)

theorem foldl_min_le (rest : List String) (d : String) (qm : ℚ)
    (h : dateToNumericValue
        (rest.foldl (fun mn date => if (compareDates date mn).getD 0 < 0 then date else mn) d) =
      some qm) :
    ∃ q0, dateToNumericValue d = some q0 ∧ qm ≤ q0 := by
  induction rest generalizing d with
  | nil => exact ⟨qm, h, le_refl qm⟩
  | cons x rest ih =>
    rw [List.foldl_cons] at h
    obtain ⟨q', hq', hle⟩ := ih _ h
    by_cases hc : (compareDates x d).getD 0 < 0
    · rw [if_pos hc] at hq'
      obtain ⟨qa, qb, hqa, hqb, hab⟩ := compare_getD_lt hc
      rw [hqa, Option.some.injEq] at hq'
      exact ⟨qb, hqb, by linarith⟩
    · rw [if_neg hc] at hq'
      exact ⟨q', hq', hle⟩

theorem foldl_max_ge (rest : List String) (d : String) (qM : ℚ)
    (h : dateToNumericValue
        (rest.foldl (fun mx date => if (compareDates date mx).getD 0 > 0 then date else mx) d) =
      some qM) :
    ∃ q0, dateToNumericValue d = some q0 ∧ q0 ≤ qM := by
  induction rest generalizing d with
  | nil => exact ⟨qM, h, le_refl qM⟩
  | cons x rest ih =>
    rw [List.foldl_cons] at h
    obtain ⟨q', hq', hle⟩ := ih _ h
    by_cases hc : (compareDates x d).getD 0 > 0
    · rw [if_pos hc] at hq'
      obtain ⟨qa, qb, hqa, hqb, hab⟩ := compare_getD_gt hc
      rw [hqa, Option.some.injEq] at hq'
      exact ⟨qb, hqb, by linarith⟩
    · rw [if_neg hc] at hq'
      exact ⟨q', hq', hle⟩

theorem getMinDate_mem {l : List String} {m : String} (h : getMinDate l = some m) : m ∈ l := by
  cases l with
  | nil => simp [getMinDate] at h
  | cons d rest =>
    rw [getMinDate, Option.some.injEq] at h
    exact h ▸ foldl_min_mem rest d

theorem getMaxDate_mem {l : List String} {M : String} (h : getMaxDate l = some M) : M ∈ l := by
  cases l with
  | nil => simp [getMaxDate] at h
  | cons d rest =>
    rw [getMaxDate, Option.some.injEq] at h
    exact h ▸ foldl_max_mem rest d

/-- The minimum date's value is at most the maximum date's value (whenever
both parse); both folds start from the same head element. -/
theorem minVal_le_maxVal {l : List String} {m M : String} {qm qM : ℚ}
    (hmin : getMinDate l = some m) (hmax : getMaxDate l = some M)
    (hqm : dateToNumericValue m = some qm) (hqM : dateToNumericValue M = some qM) :
    qm ≤ qM := by
  cases l with
  | nil => simp [getMinDate] at hmin
  | cons d rest =>
    rw [getMinDate, Option.some.injEq] at hmin
    rw [getMaxDate, Option.some.injEq] at hmax
    subst hmin hmax
    obtain ⟨q0, hq0, hle⟩ := foldl_min_le rest d qm hqm
    obtain ⟨q0', hq0', hge⟩ := foldl_max_ge rest d qM hqM
    rw [hq0, Option.some.injEq] at hq0'
    subst hq0'
    linarith

/-! ### Lemmas: unfolding `calculateTimelineBounds` -/

theorem getSnapUnit_ne_day (x : ℚ) (hx : 1 / 12 ≤ |x|) : getSnapUnit x ≠ SnapUnit.day := by
  rw [getSnapUnit.eq_def]
  simp only [if_neg (not_lt.mpr hx)]
  split_ifs <;> decide

/-- Inverting a successful `calculateTimelineBounds` run: the data bounds
parse to numeric values `sv ≤ ev`, and the view fields are the snapped,
padded renderings. -/
theorem calculateTimelineBounds_inversion (events : List TimelineEvent) (b : TimelineBounds)
    (h : calculateTimelineBounds events = some b) :
    ∃ sv ev : ℚ,
      dateToNumericValue b.dataStart = some sv ∧
      dateToNumericValue b.dataEnd = some ev ∧
      sv ≤ ev ∧
      b.snapUnit = getSnapUnit ((ev + max ((ev - sv) * (5 / 100)) (1 / 10)) -
        (sv - max ((ev - sv) * (5 / 100)) (1 / 10))) ∧
      b.viewStart = snapValueToDateString
        (snapToUnit (sv - max ((ev - sv) * (5 / 100)) (1 / 10)) b.snapUnit SnapDirection.floor)
        b.snapUnit SnapEdge.start ∧
      b.viewEnd = snapValueToDateString
        (snapToUnit (ev + max ((ev - sv) * (5 / 100)) (1 / 10)) b.snapUnit SnapDirection.ceil)
        b.snapUnit SnapEdge.stop := by
  rw [calculateTimelineBounds] at h
  by_cases hemp : events.isEmpty
  · rw [if_pos hemp] at h
    exact Option.noConfusion h
  rw [if_neg hemp] at h
  simp only [Option.bind_eq_bind] at h
  cases hmin : getMinDate (allEventDates events) with
  | none => rw [hmin, Option.none_bind] at h; exact Option.noConfusion h
  | some ds =>
  rw [hmin, Option.some_bind] at h
  cases hmax : getMaxDate (allEventDates events) with
  | none => rw [hmax, Option.none_bind] at h; exact Option.noConfusion h
  | some de =>
  rw [hmax, Option.some_bind] at h
  cases hsv : dateToNumericValue ds with
  | none => rw [hsv, Option.none_bind] at h; exact Option.noConfusion h
  | some sv =>
  rw [hsv, Option.some_bind] at h
  cases hev : dateToNumericValue de with
  | none => rw [hev, Option.none_bind] at h; exact Option.noConfusion h
  | some ev =>
  rw [hev, Option.some_bind] at h
  rw [Option.some.injEq] at h
  subst h
  refine ⟨sv, ev, hsv, hev, minVal_le_maxVal hmin hmax hsv hev, ?_, ?_, ?_⟩ <;> rfl

/-! ### Claim C7: `null` exactly on the empty event list -/

/-- C7: with well-formed (parseable) event dates, `calculateTimelineBounds`
returns `none` exactly on the empty event list. -/
theorem claim7_null_iff_empty (events : List TimelineEvent)
    (hwf : ∀ s ∈ allEventDates events, (dateToNumericValue s).isSome = true) :
    calculateTimelineBounds events = none ↔ events = [] := by
  cases events with
  | nil => simp [calculateTimelineBounds]
  | cons e es =>
    have hcons : allEventDates (e :: es) =
        e.startDate :: (e.endDate.toList ++ allEventDates es) := by
      simp [allEventDates]
    have hmin : getMinDate (allEventDates (e :: es)) =
        some ((e.endDate.toList ++ allEventDates es).foldl
          (fun mn date => if (compareDates date mn).getD 0 < 0 then date else mn) e.startDate) := by
      rw [hcons, getMinDate]
    have hmax : getMaxDate (allEventDates (e :: es)) =
        some ((e.endDate.toList ++ allEventDates es).foldl
          (fun mx date => if (compareDates date mx).getD 0 > 0 then date else mx) e.startDate) := by
      rw [hcons, getMaxDate]
    obtain ⟨qm, hqm⟩ := Option.isSome_iff_exists.mp (hwf _ (getMinDate_mem hmin))
    obtain ⟨qM, hqM⟩ := Option.isSome_iff_exists.mp (hwf _ (getMaxDate_mem hmax))
    constructor
    · intro hnone
      rw [calculateTimelineBounds, if_neg (by simp), ] at hnone
      simp only [Option.bind_eq_bind] at hnone
      rw [hmin, Option.some_bind, hmax, Option.some_bind, hqm, Option.some_bind,
        hqM, Option.some_bind] at hnone
      exact Option.noConfusion hnone
    · intro heq
      exact absurd heq (List.cons_ne_nil e es)

/-- Witness for C7: a two-event list. -/
theorem claim7_witness :
    ¬(calculateTimelineBounds
        [⟨"a", "t", EventType.point, "1492", none⟩,
         ⟨"b", "t", EventType.span, "1776-07-04", some "1783-09-03"⟩] = none) := by
  have h := claim7_null_iff_empty
    [⟨"a", "t", EventType.point, "1492", none⟩,
     ⟨"b", "t", EventType.span, "1776-07-04", some "1783-09-03"⟩]
    (by intro s hs; fin_cases hs <;> with_unfolding_all rfl)
  rw [h]
  simp

/-! ### Claim C10: `snapUnit` is never `day` -/

theorem bounds_snapUnit_ne_day (events : List TimelineEvent) (b : TimelineBounds)
    (h : calculateTimelineBounds events = some b) : b.snapUnit ≠ SnapUnit.day := by
  obtain ⟨sv, ev, hsv, hev, hle, hu, hvs, hve⟩ := calculateTimelineBounds_inversion events b h
  rw [hu]
  apply getSnapUnit_ne_day
  have hpad : (1 : ℚ) / 10 ≤ max ((ev - sv) * (5 / 100)) (1 / 10) := le_max_right _ _
  have habs : |(ev + max ((ev - sv) * (5 / 100)) (1 / 10)) -
      (sv - max ((ev - sv) * (5 / 100)) (1 / 10))| =
      (ev + max ((ev - sv) * (5 / 100)) (1 / 10)) -
      (sv - max ((ev - sv) * (5 / 100)) (1 / 10)) := abs_of_nonneg (by linarith)
  rw [habs]
  linarith

/-- C10: `calculateTimelineBounds` never chooses `snapUnit = day`: padding is
at least 0.1 years per side, so the padded range is at least 0.2 years,
above the 1/12-year day threshold. -/
theorem claim10_snap_unit_never_day (events : List TimelineEvent) (b : TimelineBounds)
    (h : calculateTimelineBounds events = some b) : b.snapUnit ≠ SnapUnit.day :=
  bounds_snapUnit_ne_day events b h

/-- Witness for C10 on a one-day range (unpadded range far below a month). -/
theorem claim10_witness :
    calculateTimelineBounds [⟨"a", "t", EventType.span, "2024-03-15", some "2024-03-16"⟩] =
      some ⟨"2024-03-15", "2024-03-16", "2024-02-01", "2024-06-01", SnapUnit.month⟩ ∧
    ¬(SnapUnit.month = SnapUnit.day) := by
  constructor
  · with_unfolding_all rfl
  · exact claim10_snap_unit_never_day
      [⟨"a", "t", EventType.span, "2024-03-15", some "2024-03-16"⟩]
      ⟨"2024-03-15", "2024-03-16", "2024-02-01", "2024-06-01", SnapUnit.month⟩
      (by with_unfolding_all rfl)

/-! ### Lemmas: numeric values of snapped view-bound strings -/

theorem numeric_format_ymd (Y : ℤ) (m dd : ℕ) (hm1 : 1 ≤ m) (hm2 : m ≤ 12)
    (hd1 : 1 ≤ dd) (hd2 : dd ≤ 31) :
    dateToNumericValue
        (formatExtendedDate ⟨Y, some m, some dd, none, none, none, DatePrecision.day⟩) =
      some ((Y : ℚ) + ((m : ℚ) - 1) / 12 + ((dd : ℚ) - 1) / 365) := by
  have hrep : isRepresentable ⟨Y, some m, some dd, none, none, none, DatePrecision.day⟩ = true := by
    simp [isRepresentable, hm1, hm2, hd1, hd2]
  rw [dateToNumericValue_format _ hrep, parsedNumeric_ymd Y m dd hm1 hd1]

theorem snapValue_int_start (value : ℚ) (z : ℤ) (hz : value = (z : ℚ)) (u : SnapUnit)
    (hu : u = SnapUnit.year ∨ u = SnapUnit.decade ∨ u = SnapUnit.century ∨
      u = SnapUnit.millennium) :
    dateToNumericValue (snapValueToDateString value u SnapEdge.start) = some ((z : ℚ)) := by
  have hfl : ⌊value⌋ = z := by rw [hz, Int.floor_intCast]
  rcases hu with rfl | rfl | rfl | rfl <;>
  · simp only [snapValueToDateString]
    rw [hfl, numeric_format_ymd z 1 1 le_rfl (by norm_num) le_rfl (by norm_num)]
    norm_num

theorem snapValue_year_stop (value : ℚ) (z : ℤ) (hz : value = (z : ℚ)) :
    dateToNumericValue (snapValueToDateString value SnapUnit.year SnapEdge.stop) =
      some ((z : ℚ) + 11 / 12 + 30 / 365) := by
  have hfl : ⌊value⌋ = z := by rw [hz, Int.floor_intCast]
  simp only [snapValueToDateString]
  rw [hfl, numeric_format_ymd z 12 31 (by norm_num) le_rfl (by norm_num) le_rfl]
  norm_num

theorem snapValue_mult_stop (value : ℚ) (z : ℤ) (hz : value = (z : ℚ)) (u : SnapUnit)
    (hu : u = SnapUnit.decade ∨ u = SnapUnit.century ∨ u = SnapUnit.millennium) :
    dateToNumericValue (snapValueToDateString value u SnapEdge.stop) =
      some ((z : ℚ) - 1 + 11 / 12 + 30 / 365) := by
  have hfl : ⌊value⌋ = z := by rw [hz, Int.floor_intCast]
  rcases hu with rfl | rfl | rfl <;>
  · simp only [snapValueToDateString]
    rw [hfl, numeric_format_ymd (z - 1) 12 31 (by norm_num) le_rfl (by norm_num) le_rfl]
    push_cast
    norm_num

theorem snapValue_month_start (k : ℤ) :
    dateToNumericValue (snapValueToDateString ((k : ℚ) / 12) SnapUnit.month SnapEdge.start) =
      some ((k : ℚ) / 12) := by
  set Y := ⌊(k : ℚ) / 12⌋ with hY
  have hfloor_le : (Y : ℚ) ≤ (k : ℚ) / 12 := Int.floor_le _
  have hlt : (k : ℚ) / 12 < (Y : ℚ) + 1 := Int.lt_floor_add_one _
  have h1 : 12 * Y ≤ k := by
    have h12 : (12 * Y : ℚ) ≤ (k : ℚ) := by push_cast; linarith
    exact_mod_cast h12
  have h2 : k < 12 * Y + 12 := by
    have h12 : (k : ℚ) < (12 * Y + 12 : ℚ) := by push_cast; linarith
    exact_mod_cast h12
  have hfrac : ((k : ℚ) / 12 - (Y : ℚ)) * 12 = ((k - 12 * Y : ℤ) : ℚ) := by push_cast; ring
  simp only [snapValueToDateString]
  rw [hfrac, Int.floor_intCast,
    max_eq_right (by omega : (1 : ℤ) ≤ k - 12 * Y + 1),
    numeric_format_ymd Y (k - 12 * Y + 1).toNat 1 (by omega) (by omega) le_rfl (by norm_num)]
  have hc : (((k - 12 * Y + 1).toNat : ℚ)) = ((k : ℚ) - 12 * Y + 1) := by
    have := Int.toNat_of_nonneg (by omega : (0 : ℤ) ≤ k - 12 * Y + 1)
    exact_mod_cast congrArg (fun z : ℤ => (z : ℚ)) this
  rw [hc, Option.some.injEq]
  field_simp
  ring

theorem snapValue_month_stop (k : ℤ) :
    dateToNumericValue (snapValueToDateString ((k : ℚ) / 12) SnapUnit.month SnapEdge.stop) =
      some ((k : ℚ) / 12 + 1 / 12) := by
  set Y := ⌊(k : ℚ) / 12⌋ with hY
  have hfloor_le : (Y : ℚ) ≤ (k : ℚ) / 12 := Int.floor_le _
  have hlt : (k : ℚ) / 12 < (Y : ℚ) + 1 := Int.lt_floor_add_one _
  have h1 : 12 * Y ≤ k := by
    have h12 : (12 * Y : ℚ) ≤ (k : ℚ) := by push_cast; linarith
    exact_mod_cast h12
  have h2 : k < 12 * Y + 12 := by
    have h12 : (k : ℚ) < (12 * Y + 12 : ℚ) := by push_cast; linarith
    exact_mod_cast h12
  have hfrac : ((k : ℚ) / 12 - (Y : ℚ)) * 12 = ((k - 12 * Y : ℤ) : ℚ) := by push_cast; ring
  simp only [snapValueToDateString]
  rw [hfrac, Int.floor_intCast]
  by_cases hj : k - 12 * Y + 1 + 1 > 12
  · rw [if_pos hj, numeric_format_ymd (Y + 1) 1 1 le_rfl (by norm_num) le_rfl (by norm_num)]
    have hk : k = 12 * Y + 11 := by omega
    rw [Option.some.injEq, hk]
    push_cast
    field_simp
    ring
  · rw [if_neg hj,
      numeric_format_ymd Y (k - 12 * Y + 1 + 1).toNat 1 (by omega) (by omega) le_rfl (by norm_num)]
    have hc : (((k - 12 * Y + 1 + 1).toNat : ℚ)) = ((k : ℚ) - 12 * Y + 1 + 1) := by
      have := Int.toNat_of_nonneg (by omega : (0 : ℤ) ≤ k - 12 * Y + 1 + 1)
      exact_mod_cast congrArg (fun z : ℤ => (z : ℚ)) this
    rw [hc, Option.some.injEq]
    field_simp
    ring

/-- Start-direction snapping never moves the view start above the padded
start value. -/
theorem snap_start_le (v : ℚ) (u : SnapUnit) (hu : u ≠ SnapUnit.day) :
    ∃ q, dateToNumericValue
        (snapValueToDateString (snapToUnit v u SnapDirection.floor) u SnapEdge.start) = some q ∧
      q ≤ v := by
  cases u with
  | day => exact absurd rfl hu
  | month =>
    refine ⟨((⌊v * 12⌋ : ℤ) : ℚ) / 12, ?_, ?_⟩
    · have hsnap : snapToUnit v SnapUnit.month SnapDirection.floor = ((⌊v * 12⌋ : ℤ) : ℚ) / 12 := by
        simp [snapToUnit, roundFn]
      rw [hsnap]
      exact snapValue_month_start ⌊v * 12⌋
    · have := Int.floor_le (v * 12)
      linarith
  | year =>
    refine ⟨((⌊v⌋ : ℤ) : ℚ), ?_, Int.floor_le v⟩
    have hsnap : snapToUnit v SnapUnit.year SnapDirection.floor = ((⌊v⌋ : ℤ) : ℚ) := by
      simp [snapToUnit, roundFn]
    rw [hsnap]
    exact snapValue_int_start _ ⌊v⌋ rfl _ (Or.inl rfl)
  | decade =>
    refine ⟨((⌊v / 10⌋ * 10 : ℤ) : ℚ), ?_, ?_⟩
    · exact snapValue_int_start _ (⌊v / 10⌋ * 10)
        (by simp [snapToUnit, roundFn]) _ (Or.inr (Or.inl rfl))
    · have := Int.floor_le (v / 10)
      push_cast
      linarith
  | century =>
    refine ⟨((⌊v / 100⌋ * 100 : ℤ) : ℚ), ?_, ?_⟩
    · exact snapValue_int_start _ (⌊v / 100⌋ * 100)
        (by simp [snapToUnit, roundFn]) _ (Or.inr (Or.inr (Or.inl rfl)))
    · have := Int.floor_le (v / 100)
      push_cast
      linarith
  | millennium =>
    refine ⟨((⌊v / 1000⌋ * 1000 : ℤ) : ℚ), ?_, ?_⟩
    · exact snapValue_int_start _ (⌊v / 1000⌋ * 1000)
        (by simp [snapToUnit, roundFn]) _ (Or.inr (Or.inr (Or.inr rfl)))
    · have := Int.floor_le (v / 1000)
      push_cast
      linarith

/-- Stop-direction snapping never moves the view end below the padded end
value by more than `5/4380` of a year (the shortfall of "December 31" against
a clean year boundary). -/
theorem snap_stop_ge (v : ℚ) (u : SnapUnit) (hu : u ≠ SnapUnit.day) :
    ∃ q, dateToNumericValue
        (snapValueToDateString (snapToUnit v u SnapDirection.ceil) u SnapEdge.stop) = some q ∧
      v - 5 / 4380 ≤ q := by
  cases u with
  | day => exact absurd rfl hu
  | month =>
    refine ⟨((⌈v * 12⌉ : ℤ) : ℚ) / 12 + 1 / 12, ?_, ?_⟩
    · have hsnap : snapToUnit v SnapUnit.month SnapDirection.ceil = ((⌈v * 12⌉ : ℤ) : ℚ) / 12 := by
        simp [snapToUnit, roundFn]
      rw [hsnap]
      exact snapValue_month_stop ⌈v * 12⌉
    · have := Int.le_ceil (v * 12)
      linarith
  | year =>
    refine ⟨((⌈v⌉ : ℤ) : ℚ) + 11 / 12 + 30 / 365, ?_, ?_⟩
    · have hsnap : snapToUnit v SnapUnit.year SnapDirection.ceil = ((⌈v⌉ : ℤ) : ℚ) := by
        simp [snapToUnit, roundFn]
      rw [hsnap]
      exact snapValue_year_stop _ ⌈v⌉ rfl
    · have := Int.le_ceil v
      linarith
  | decade =>
    refine ⟨((⌈v / 10⌉ * 10 : ℤ) : ℚ) - 1 + 11 / 12 + 30 / 365, ?_, ?_⟩
    · exact snapValue_mult_stop _ (⌈v / 10⌉ * 10)
        (by simp [snapToUnit, roundFn]) _ (Or.inl rfl)
    · have := Int.le_ceil (v / 10)
      push_cast
      linarith
  | century =>
    refine ⟨((⌈v / 100⌉ * 100 : ℤ) : ℚ) - 1 + 11 / 12 + 30 / 365, ?_, ?_⟩
    · exact snapValue_mult_stop _ (⌈v / 100⌉ * 100)
        (by simp [snapToUnit, roundFn]) _ (Or.inr (Or.inl rfl))
    · have := Int.le_ceil (v / 100)
      push_cast
      linarith
  | millennium =>
    refine ⟨((⌈v / 1000⌉ * 1000 : ℤ) : ℚ) - 1 + 11 / 12 + 30 / 365, ?_, ?_⟩
    · exact snapValue_mult_stop _ (⌈v / 1000⌉ * 1000)
        (by simp [snapToUnit, roundFn]) _ (Or.inr (Or.inr rfl))
    · have := Int.le_ceil (v / 1000)
      push_cast
      linarith

/-! ### Claim C5: view bounds contain the data bounds -/

/-- C5: whenever `calculateTimelineBounds` returns bounds, the numeric values
satisfy `viewStart ≤ dataStart` and `dataEnd ≤ viewEnd`. -/
theorem claim5_bounds_containment (events : List TimelineEvent) (b : TimelineBounds)
    (h : calculateTimelineBounds events = some b) :
    ∃ qvs qds qde qve,
      dateToNumericValue b.viewStart = some qvs ∧
      dateToNumericValue b.dataStart = some qds ∧
      dateToNumericValue b.dataEnd = some qde ∧
      dateToNumericValue b.viewEnd = some qve ∧
      qvs ≤ qds ∧ qde ≤ qve := by
  obtain ⟨sv, ev, hsv, hev, hle, hu, hvs, hve⟩ := calculateTimelineBounds_inversion events b h
  have hday : b.snapUnit ≠ SnapUnit.day := bounds_snapUnit_ne_day events b h
  have hpad : (1 : ℚ) / 10 ≤ max ((ev - sv) * (5 / 100)) (1 / 10) := le_max_right _ _
  obtain ⟨qvs, hqvs, hqvs_le⟩ :=
    snap_start_le (sv - max ((ev - sv) * (5 / 100)) (1 / 10)) b.snapUnit hday
  obtain ⟨qve, hqve, hqve_ge⟩ :=
    snap_stop_ge (ev + max ((ev - sv) * (5 / 100)) (1 / 10)) b.snapUnit hday
  refine ⟨qvs, sv, ev, qve, ?_, hsv, hev, ?_, by linarith, by linarith⟩
  · rw [hvs]
    exact hqvs
  · rw [hve]
    exact hqve

/-- Witness for C5 on a concrete one-event list. -/
theorem claim5_witness :
    ∃ qvs qds qde qve,
      dateToNumericValue "2024-02-01" = some qvs ∧
      dateToNumericValue "2024-03-15" = some qds ∧
      dateToNumericValue "2024-03-16" = some qde ∧
      dateToNumericValue "2024-06-01" = some qve ∧
      qvs ≤ qds ∧ qde ≤ qve :=
  claim5_bounds_containment [⟨"a", "t", EventType.span, "2024-03-15", some "2024-03-16"⟩]
    ⟨"2024-03-15", "2024-03-16", "2024-02-01", "2024-06-01", SnapUnit.month⟩
    (by with_unfolding_all rfl)

/-! ### Lemmas: the lane-assignment loop -/

theorem rangesOverlap_symm (a b c d m : ℚ) :
    rangesOverlapOrTooClose a b c d m = rangesOverlapOrTooClose c d a b m := by
  simp only [rangesOverlapOrTooClose]
  rw [Bool.and_comm]

theorem laneHasOverlap_false {occ : List LaneOccupancy} {rs re : ℚ}
    (h : laneHasOverlap occ rs re = false) :
    ∀ o ∈ occ, rangesOverlapOrTooClose rs re o.start o.stop MIN_VISUAL_SPACING = false := by
  intro o ho
  rw [laneHasOverlap, List.any_eq_false] at h
  simpa using h o ho

theorem assignLane_none {occs : List (List LaneOccupancy)} {rs re : ℚ}
    (h : (assignLane occs rs re).1 = none) : (assignLane occs rs re).2 = occs := by
  induction occs with
  | nil => rfl
  | cons occ rest ih =>
    rw [assignLane] at h ⊢
    by_cases hov : laneHasOverlap occ rs re
    · rw [if_pos hov] at h ⊢
      simp only [Option.map_eq_none'] at h
      simp only [List.cons.injEq, true_and]
      exact ih h
    · rw [if_neg hov] at h
      exact Option.noConfusion h

theorem assignLane_some {occs : List (List LaneOccupancy)} {rs re : ℚ} {k : ℕ}
    (h : (assignLane occs rs re).1 = some k) :
    k < occs.length ∧
    laneHasOverlap (occs.getD k []) rs re = false ∧
    (assignLane occs rs re).2.getD k [] = occs.getD k [] ++ [⟨rs, re⟩] ∧
    ∀ j, j ≠ k → (assignLane occs rs re).2.getD j [] = occs.getD j [] := by
  induction occs generalizing k with
  | nil => exact Option.noConfusion h
  | cons occ rest ih =>
    rw [assignLane] at h ⊢
    by_cases hov : laneHasOverlap occ rs re
    · rw [if_pos hov] at h ⊢
      simp only [Option.map_eq_some'] at h
      obtain ⟨k', hk', rfl⟩ := h
      obtain ⟨hlen, hfree, hset, hother⟩ := ih hk'
      refine ⟨by simpa using hlen, ?_, ?_, ?_⟩
      · simpa using hfree
      · simpa using hset
      · intro j hj
        cases j with
        | zero => rfl
        | succ j' =>
          simp only [List.getD_cons_succ]
          exact hother j' (by omega)
    · rw [if_neg hov] at h ⊢
      simp only [Option.some.injEq] at h
      subst h
      refine ⟨by simp, by simpa using hov, by simp, ?_⟩
      · intro j hj
        cases j with
        | zero => exact absurd rfl hj
        | succ j' => simp

theorem assignLane_mem_mono {occs : List (List LaneOccupancy)} {rs re : ℚ}
    (j : ℕ) (o : LaneOccupancy) (ho : o ∈ occs.getD j []) :
    o ∈ (assignLane occs rs re).2.getD j [] := by
  cases hres : (assignLane occs rs re).1 with
  | none => rw [assignLane_none hres]; exact ho
  | some k =>
    obtain ⟨_, _, hset, hother⟩ := assignLane_some hres
    by_cases hjk : j = k
    · subst hjk
      rw [hset]
      exact List.mem_append_left _ ho
    · rw [hother j hjk]
      exact ho

theorem assignLane_new_mem {occs : List (List LaneOccupancy)} {rs re : ℚ} {k : ℕ}
    (h : (assignLane occs rs re).1 = some k) :
    (⟨rs, re⟩ : LaneOccupancy) ∈ (assignLane occs rs re).2.getD k [] := by
  obtain ⟨_, _, hset, _⟩ := assignLane_some h
  rw [hset]
  exact List.mem_append_right _ (List.mem_cons_self _ _)

/-- The running invariant of the layout loop: the produced layouts never
collide with what was already in their lane when the loop started, and no
two non-collapsed layouts in the same lane collide with each other. -/
theorem layoutLoop_invariant (bounds : TimelineBounds) :
    ∀ (evs : List TimelineEvent) (occs : List (List LaneOccupancy)) (ls : List EventLayout),
      layoutLoop bounds evs occs = some ls →
      (∀ l ∈ ls, l.collapsed = false →
        ∀ o ∈ occs.getD l.lane [], rangesOverlapOrTooClose (layoutRangeStart l)
          (layoutRangeEnd l) o.start o.stop MIN_VISUAL_SPACING = false) ∧
      ls.Pairwise (fun a b => a.collapsed = false → b.collapsed = false → a.lane = b.lane →
        rangesOverlapOrTooClose (layoutRangeStart a) (layoutRangeEnd a)
          (layoutRangeStart b) (layoutRangeEnd b) MIN_VISUAL_SPACING = false) := by
  intro evs
  induction evs with
  | nil =>
    intro occs ls h
    rw [layoutLoop, Option.some.injEq] at h
    subst h
    exact ⟨by simp, List.Pairwise.nil⟩
  | cons e rest ih =>
    intro occs ls h
    rw [layoutLoop] at h
    simp only [Option.bind_eq_bind] at h
    cases hx : getDatePosition e.startDate bounds with
    | none => rw [hx, Option.none_bind] at h; exact Option.noConfusion h
    | some x =>
    rw [hx, Option.some_bind] at h
    cases hw : eventWidth e bounds with
    | none => rw [hw, Option.none_bind] at h; exact Option.noConfusion h
    | some w =>
    rw [hw, Option.some_bind] at h
    cases hrest : layoutLoop bounds rest
        (assignLane occs x (x + w + TEXT_LABEL_WIDTH)).2 with
    | none => rw [hrest, Option.none_bind] at h; exact Option.noConfusion h
    | some rest' =>
    rw [hrest, Option.some_bind, Option.some.injEq] at h
    subst h
    obtain ⟨P1, P2⟩ := ih _ _ hrest
    cases hres : (assignLane occs x (x + w + TEXT_LABEL_WIDTH)).1 with
    | none =>
      have hocc := assignLane_none hres
      rw [hocc] at P1
      constructor
      · intro l hl hcol o ho
        rcases List.mem_cons.mp hl with rfl | hl'
        · simp at hcol
        · exact P1 l hl' hcol o ho
      · refine List.Pairwise.cons ?_ P2
        intro b hb hcol
        simp at hcol
    | some k =>
      obtain ⟨hklen, hfree, hset, hother⟩ := assignLane_some hres
      constructor
      · intro l hl hcol o ho
        rcases List.mem_cons.mp hl with rfl | hl'
        · simp only [Option.getD_some] at ho ⊢
          exact laneHasOverlap_false hfree o ho
        · exact P1 l hl' hcol o (assignLane_mem_mono _ o ho)
      · refine List.Pairwise.cons ?_ P2
        intro b hb hcolA hcolB hlane
        have hmem := assignLane_new_mem hres
        simp only [Option.getD_some] at hlane
        have hover := P1 b hb hcolB ⟨x, x + w + TEXT_LABEL_WIDTH⟩
          (by rw [hlane] at hmem; exact hmem)
        rw [rangesOverlap_symm] at hover
        simpa [layoutRangeStart, layoutRangeEnd] using hover

theorem calculateEventLayout_pairwise (events : List TimelineEvent) (bounds : TimelineBounds)
    (ls : List EventLayout) (h : calculateEventLayout events bounds = some ls) :
    ls.Pairwise (fun a b => a.collapsed = false → b.collapsed = false → a.lane = b.lane →
      rangesOverlapOrTooClose (layoutRangeStart a) (layoutRangeEnd a)
        (layoutRangeStart b) (layoutRangeEnd b) MIN_VISUAL_SPACING = false) := by
  rw [calculateEventLayout] at h
  by_cases hemp : events.isEmpty
  · rw [if_pos hemp, Option.some.injEq] at h
    subst h
    exact List.Pairwise.nil
  · rw [if_neg hemp] at h
    exact (layoutLoop_invariant bounds _ _ _ h).2

theorem calculateEventLayout_no_overlap (events : List TimelineEvent) (bounds : TimelineBounds)
    (ls : List EventLayout) (h : calculateEventLayout events bounds = some ls)
    (i j : ℕ) (hi : i < ls.length) (hj : j < ls.length) (hij : i ≠ j)
    (hci : (ls.get ⟨i, hi⟩).collapsed = false) (hcj : (ls.get ⟨j, hj⟩).collapsed = false)
    (hlane : (ls.get ⟨i, hi⟩).lane = (ls.get ⟨j, hj⟩).lane) :
    rangesOverlapOrTooClose (layoutRangeStart (ls.get ⟨i, hi⟩)) (layoutRangeEnd (ls.get ⟨i, hi⟩))
      (layoutRangeStart (ls.get ⟨j, hj⟩)) (layoutRangeEnd (ls.get ⟨j, hj⟩))
      MIN_VISUAL_SPACING = false := by
  have hpw := calculateEventLayout_pairwise events bounds ls h
  rw [List.pairwise_iff_get] at hpw
  rcases Nat.lt_or_ge i j with hlt | hge
  · exact hpw ⟨i, hi⟩ ⟨j, hj⟩ hlt hci hcj hlane
  · have hlt : j < i := by omega
    have hs := hpw ⟨j, hj⟩ ⟨i, hi⟩ hlt hcj hci hlane.symm
    rw [rangesOverlap_symm] at hs
    exact hs

/-! ### Claim C1: no two same-lane non-collapsed layouts overlap -/

/-- C1: in the layout returned by `calculateEventLayout` (and in each track's
layout from `calculateTrackLayouts`), any two distinct non-collapsed layouts
in the same lane have non-overlapping padded collision ranges
`[x, x + width + TEXT_LABEL_WIDTH]`. -/
theorem claim1_no_lane_overlap (events : List TimelineEvent) (bounds : TimelineBounds) :
    (∀ ls, calculateEventLayout events bounds = some ls →
      ∀ i j (hi : i < ls.length) (hj : j < ls.length), i ≠ j →
        (ls.get ⟨i, hi⟩).collapsed = false → (ls.get ⟨j, hj⟩).collapsed = false →
        (ls.get ⟨i, hi⟩).lane = (ls.get ⟨j, hj⟩).lane →
        rangesOverlapOrTooClose (layoutRangeStart (ls.get ⟨i, hi⟩))
          (layoutRangeEnd (ls.get ⟨i, hi⟩)) (layoutRangeStart (ls.get ⟨j, hj⟩))
          (layoutRangeEnd (ls.get ⟨j, hj⟩)) MIN_VISUAL_SPACING = false) ∧
    (∀ p ∈ calculateTrackLayouts events bounds, ∀ ls, p.2 = some ls →
      ∀ i j (hi : i < ls.length) (hj : j < ls.length), i ≠ j →
        (ls.get ⟨i, hi⟩).collapsed = false → (ls.get ⟨j, hj⟩).collapsed = false →
        (ls.get ⟨i, hi⟩).lane = (ls.get ⟨j, hj⟩).lane →
        rangesOverlapOrTooClose (layoutRangeStart (ls.get ⟨i, hi⟩))
          (layoutRangeEnd (ls.get ⟨i, hi⟩)) (layoutRangeStart (ls.get ⟨j, hj⟩))
          (layoutRangeEnd (ls.get ⟨j, hj⟩)) MIN_VISUAL_SPACING = false) := by
  constructor
  · intro ls h i j hi hj hij hci hcj hlane
    exact calculateEventLayout_no_overlap events bounds ls h i j hi hj hij hci hcj hlane
  · intro p hp ls hls i j hi hj hij hci hcj hlane
    rw [calculateTrackLayouts] at hp
    obtain ⟨⟨t, es⟩, hmem, rfl⟩ := List.mem_map.mp hp
    exact calculateEventLayout_no_overlap es bounds ls hls i j hi hj hij hci hcj hlane

/-- Witness for C1: two far-apart point events land in the same lane and
their collision ranges do not overlap. -/
theorem claim1_witness :
    rangesOverlapOrTooClose (1 / 10) (1 / 10 + 1 / 125 + TEXT_LABEL_WIDTH)
      (4 / 5) (4 / 5 + 1 / 125 + TEXT_LABEL_WIDTH) MIN_VISUAL_SPACING = false :=
  (claim1_no_lane_overlap
      [⟨"a", "t", EventType.point, "2001", none⟩, ⟨"b", "t", EventType.point, "2008", none⟩]
      ⟨"2000", "2010", "2000", "2010", SnapUnit.year⟩).1
    [⟨"a", 1 / 10, 1 / 125, 0, false⟩, ⟨"b", 4 / 5, 1 / 125, 0, false⟩]
    (by with_unfolding_all rfl) 0 1 (by norm_num) (by norm_num) (by norm_num) rfl rfl rfl

/-! ### Lemmas: identical point events fill lanes in order -/

theorem eventSortLe_self (e : TimelineEvent) : eventSortLe e e = true := by
  cases he : e.type <;> simp [eventSortLe, he]

theorem insertSorted_replicate (e : TimelineEvent) (k : ℕ) :
    insertSorted eventSortLe e (List.replicate k e) = List.replicate (k + 1) e := by
  induction k with
  | zero => rfl
  | succ k ih =>
    rw [List.replicate_succ, insertSorted, if_pos (eventSortLe_self e), ih,
      ← List.replicate_succ]

theorem foldl_insert_replicate (e : TimelineEvent) (n : ℕ) :
    ∀ k : ℕ, (List.replicate n e).foldl (fun acc x => insertSorted eventSortLe x acc)
      (List.replicate k e) = List.replicate (k + n) e := by
  induction n with
  | zero => intro k; simp
  | succ n ih =>
    intro k
    rw [List.replicate_succ, List.foldl_cons, insertSorted_replicate, ih (k + 1)]
    congr 1
    omega

theorem sortEvents_replicate (e : TimelineEvent) (n : ℕ) :
    sortEvents (List.replicate n e) = List.replicate n e := by
  rw [sortEvents]
  have := foldl_insert_replicate e n 0
  simpa using this

theorem self_overlap_point (x : ℚ) :
    rangesOverlapOrTooClose x (x + POINT_EVENT_WIDTH + TEXT_LABEL_WIDTH) x
      (x + POINT_EVENT_WIDTH + TEXT_LABEL_WIDTH) MIN_VISUAL_SPACING = true := by
  simp only [rangesOverlapOrTooClose, POINT_EVENT_WIDTH, TEXT_LABEL_WIDTH, MIN_VISUAL_SPACING,
    Bool.and_eq_true, decide_eq_true_eq]
  constructor <;> linarith

theorem eventWidth_point (e : TimelineEvent) (bounds : TimelineBounds)
    (h : e.type = EventType.point) : eventWidth e bounds = some POINT_EVENT_WIDTH := by
  cases hd : e.endDate <;> simp [eventWidth, h, hd]

theorem assignLane_replicate_lt (rs re : ℚ)
    (hov : rangesOverlapOrTooClose rs re rs re MIN_VISUAL_SPACING = true) (j t : ℕ) :
    assignLane (List.replicate j [⟨rs, re⟩] ++ [] :: List.replicate t []) rs re =
      (some j, List.replicate (j + 1) [⟨rs, re⟩] ++ List.replicate t []) := by
  induction j with
  | zero =>
    simp only [List.replicate_zero, List.nil_append]
    rw [assignLane, if_neg (by simp [laneHasOverlap])]
    simp [List.replicate_succ]
  | succ j ih =>
    rw [List.replicate_succ, List.cons_append, assignLane,
      if_pos (by simp [laneHasOverlap, hov]), ih]
    simp [List.replicate_succ]

theorem assignLane_replicate_full (rs re : ℚ)
    (hov : rangesOverlapOrTooClose rs re rs re MIN_VISUAL_SPACING = true) (j : ℕ) :
    assignLane (List.replicate j [⟨rs, re⟩]) rs re = (none, List.replicate j [⟨rs, re⟩]) := by
  induction j with
  | zero => rfl
  | succ j ih =>
    rw [List.replicate_succ, assignLane, if_pos (by simp [laneHasOverlap, hov]), ih]
    simp [List.replicate_succ]

theorem layoutLoop_replicate_fill (bounds : TimelineBounds) (e : TimelineEvent) (x : ℚ)
    (hx : getDatePosition e.startDate bounds = some x)
    (hw : eventWidth e bounds = some POINT_EVENT_WIDTH) :
    ∀ (m j t : ℕ), j + t = MAX_LANES →
      layoutLoop bounds (List.replicate m e)
          (List.replicate j [⟨x, x + POINT_EVENT_WIDTH + TEXT_LABEL_WIDTH⟩] ++
            List.replicate t []) =
        some ((List.range' j (min m t)).map
            (fun i => ⟨e.id, x, POINT_EVENT_WIDTH, i, false⟩) ++
          List.replicate (m - t) ⟨e.id, x, POINT_EVENT_WIDTH, MAX_LANES, true⟩) := by
  intro m
  induction m with
  | zero =>
    intro j t hjt
    simp [layoutLoop]
  | succ m ih =>
    intro j t hjt
    rw [List.replicate_succ, layoutLoop]
    simp only [Option.bind_eq_bind]
    rw [hx, Option.some_bind, hw, Option.some_bind]
    cases t with
    | zero =>
      have hj : j = MAX_LANES := by omega
      subst hj
      simp only [List.replicate_zero, List.append_nil]
      rw [assignLane_replicate_full x (x + POINT_EVENT_WIDTH + TEXT_LABEL_WIDTH)
        (self_overlap_point x) MAX_LANES]
      have hrec := ih MAX_LANES 0 (by omega)
      simp only [List.replicate_zero, List.append_nil] at hrec
      rw [hrec]
      simp [List.replicate_succ]
    | succ t' =>
      rw [show List.replicate (t' + 1) ([] : List LaneOccupancy) =
        [] :: List.replicate t' [] from rfl]
      rw [assignLane_replicate_lt x (x + POINT_EVENT_WIDTH + TEXT_LABEL_WIDTH)
        (self_overlap_point x) j t']
      rw [ih (j + 1) t' (by omega)]
      simp only [Option.some_bind]
      rw [Nat.succ_min_succ, List.range'_succ]
      simp [Nat.succ_sub_succ]

/-! ### Claim C6: overflow beyond 12 mutually overlapping events -/

/-- C6: for `n > 12` identical point events (all mutually overlapping at one
instant), exactly `n - 12` layouts are collapsed, the non-collapsed ones
occupy lanes 0 through 11 in order (one each), and every collapsed layout
reports the sentinel lane `MAX_LANES = 12`. -/
theorem claim6_overflow_collapses (e : TimelineEvent) (bounds : TimelineBounds) (x : ℚ) (n : ℕ)
    (hpt : e.type = EventType.point)
    (hx : getDatePosition e.startDate bounds = some x)
    (hn : 12 < n) :
    ∃ ls, calculateEventLayout (List.replicate n e) bounds = some ls ∧
      (ls.filter (fun l => l.collapsed)).length = n - 12 ∧
      (ls.filter (fun l => !l.collapsed)).map (fun l => l.lane) = List.range 12 ∧
      (∀ l ∈ ls, l.collapsed = true → l.lane = MAX_LANES) := by
  have hw := eventWidth_point e bounds hpt
  have hfill := layoutLoop_replicate_fill bounds e x hx hw n 0 MAX_LANES (by omega)
  simp only [List.replicate_zero, List.nil_append, Nat.zero_le, min_eq_right] at hfill
  have hmin : min n MAX_LANES = 12 := by
    rw [MAX_LANES]
    omega
  have hcalc : calculateEventLayout (List.replicate n e) bounds =
      some ((List.range 12).map (fun i => ⟨e.id, x, POINT_EVENT_WIDTH, i, false⟩) ++
        List.replicate (n - 12) ⟨e.id, x, POINT_EVENT_WIDTH, MAX_LANES, true⟩) := by
    rw [calculateEventLayout,
      if_neg (by simp only [List.isEmpty_iff, ← List.length_eq_zero, List.length_replicate]; omega),
      sortEvents_replicate]
    rw [hfill, hmin, List.range_eq_range']
    rfl
  refine ⟨_, hcalc, ?_, ?_, ?_⟩
  · rw [List.filter_append]
    have h1 : ((List.range 12).map
        (fun i => (⟨e.id, x, POINT_EVENT_WIDTH, i, false⟩ : EventLayout))).filter
        (fun l => l.collapsed) = [] := by
      rw [List.filter_map]
      simp [Function.comp]
    have h2 : (List.replicate (n - 12)
        (⟨e.id, x, POINT_EVENT_WIDTH, MAX_LANES, true⟩ : EventLayout)).filter
        (fun l => l.collapsed) =
        List.replicate (n - 12) (⟨e.id, x, POINT_EVENT_WIDTH, MAX_LANES, true⟩ : EventLayout) := by
      apply List.filter_eq_self.mpr
      intro a ha
      rw [List.eq_of_mem_replicate ha]
    rw [h1, h2, List.nil_append, List.length_replicate]
  · rw [List.filter_append]
    have h3 : ((List.range 12).map
        (fun i => (⟨e.id, x, POINT_EVENT_WIDTH, i, false⟩ : EventLayout))).filter
        (fun l => !l.collapsed) =
        (List.range 12).map (fun i => (⟨e.id, x, POINT_EVENT_WIDTH, i, false⟩ : EventLayout)) := by
      apply List.filter_eq_self.mpr
      intro a ha
      obtain ⟨i, _, rfl⟩ := List.mem_map.mp ha
      rfl
    have h4 : (List.replicate (n - 12)
        (⟨e.id, x, POINT_EVENT_WIDTH, MAX_LANES, true⟩ : EventLayout)).filter
        (fun l => !l.collapsed) = [] := by
      rw [List.filter_eq_nil_iff]
      intro a ha
      rw [List.eq_of_mem_replicate ha]
      simp
    rw [h3, h4, List.append_nil, List.map_map]
    have hid : ((fun l : EventLayout => l.lane) ∘
        fun i => (⟨e.id, x, POINT_EVENT_WIDTH, i, false⟩ : EventLayout)) = id := by
      funext i
      rfl
    rw [hid, List.map_id]
  · intro l hl hcol
    rcases List.mem_append.mp hl with hm | hm
    · obtain ⟨i, _, rfl⟩ := List.mem_map.mp hm
      simp at hcol
    · rw [List.eq_of_mem_replicate hm]

/-- Witness for C6: thirteen identical point events. -/
theorem claim6_witness :
    ∃ ls, calculateEventLayout
        (List.replicate 13 ⟨"p", "main", EventType.point, "2005", none⟩)
        ⟨"2000", "2010", "2000", "2010", SnapUnit.year⟩ = some ls ∧
      (ls.filter (fun l => l.collapsed)).length = 13 - 12 ∧
      (ls.filter (fun l => !l.collapsed)).map (fun l => l.lane) = List.range 12 ∧
      (∀ l ∈ ls, l.collapsed = true → l.lane = MAX_LANES) :=
  claim6_overflow_collapses ⟨"p", "main", EventType.point, "2005", none⟩
    ⟨"2000", "2010", "2000", "2010", SnapUnit.year⟩ (1 / 2) 13 rfl
    (by with_unfolding_all rfl) (by norm_num)

/-! ### Claim C9: `pan` shifts both edges by `deltaX * currentRange` -/

/-- C9: for every viewport state and every `deltaX`, `pan deltaX` shifts
`viewStart` and `viewEnd` each by exactly `deltaX * (viewEnd - viewStart)`
and leaves `zoomLevel` unchanged. -/
theorem claim9_pan_shifts_by_delta_times_range (deltaX : ℚ) (prev : ViewportState) :
    (pan deltaX prev).viewStart = prev.viewStart + deltaX * (prev.viewEnd - prev.viewStart) ∧
    (pan deltaX prev).viewEnd = prev.viewEnd + deltaX * (prev.viewEnd - prev.viewStart) ∧
    (pan deltaX prev).zoomLevel = prev.zoomLevel :=
  ⟨rfl, rfl, rfl⟩

/-! ### Claim C8: degenerate view range -/

/-- C8: when the numeric view range `viewEnd - viewStart` of the bounds is
`0`, `getDatePosition` returns `0.5` for every date and `getDateRangeWidth`
returns `0` for every date pair (no division by zero occurs). -/
theorem claim8_degenerate_range_fallbacks (bounds : TimelineBounds) (qs qe : ℚ)
    (hs : dateToNumericValue bounds.viewStart = some qs)
    (he : dateToNumericValue bounds.viewEnd = some qe)
    (hrange : qe - qs = 0) :
    (∀ date : String, getDatePosition date bounds = some (1 / 2)) ∧
    (∀ startDate endDate : String, getDateRangeWidth startDate endDate bounds = some 0) := by
  have hpos : ∀ date : String, getDatePosition date bounds = some (1 / 2) := by
    intro date
    simp [getDatePosition, hs, he, hrange]
  refine ⟨hpos, fun startDate endDate => ?_⟩
  simp [getDateRangeWidth, hpos]

/-- Witness for C8 at concrete degenerate bounds. -/
theorem claim8_witness :
    getDatePosition "2020-05-05" ⟨"2024", "2024", "2024", "2024", SnapUnit.year⟩ = some (1 / 2) ∧
    getDateRangeWidth "2020" "2030" ⟨"2024", "2024", "2024", "2024", SnapUnit.year⟩ = some 0 := by
  have h := claim8_degenerate_range_fallbacks ⟨"2024", "2024", "2024", "2024", SnapUnit.year⟩
    2024 2024 (by with_unfolding_all rfl) (by with_unfolding_all rfl) (by norm_num)
  exact ⟨h.1 "2020-05-05", h.2 "2020" "2030"⟩

/-! ### Claim C2: the 1939–1947 bounds example -/

/-- C2 counterexample: on the example event set the code snaps the padded
end value (≈ 1948.02) with `Math.ceil` to 1949 and renders December 31 of
that year, so `viewEnd` is `"1949-12-31"`, not the claimed `"1947-12-31"`. -/
theorem claim2_counterexample :
    calculateTimelineBounds wwiiEvents =
      some ⟨"1939-09-01", "1947-08-15", "1939-01-01", "1949-12-31", SnapUnit.year⟩ ∧
    ("1949-12-31" : String) ≠ "1947-12-31" :=
  ⟨by with_unfolding_all rfl, by decide⟩

/-- C2 amended: for the example event set, `calculateTimelineBounds` returns
`viewStart = "1939-01-01"` and `snapUnit = year` as claimed, but
`viewEnd = "1949-12-31"`. -/
theorem claim2_amended_bounds :
    (calculateTimelineBounds wwiiEvents).map TimelineBounds.viewStart = some "1939-01-01" ∧
    (calculateTimelineBounds wwiiEvents).map TimelineBounds.snapUnit = some SnapUnit.year ∧
    (calculateTimelineBounds wwiiEvents).map TimelineBounds.viewEnd = some "1949-12-31" := by
  refine ⟨?_, ?_, ?_⟩ <;> with_unfolding_all rfl

end Timeline
